import Mathlib

/-!
Shallow embedding of the reconcile-snow-prtg repository (ServiceNow ↔ PRTG
tree reconciliation).  The Python sources embedded here are:

* `src/src/sync.py`              — `_sync_groups`, `sync_trees`, `sync_device`
* `src/src/alt_prtg/controller.py` — `PrtgController` (add_group, add_device,
  update_device, move_object, delete_object, get_tree, lookups)
* `src/src/snow/controller.py`   — `SnowController.update_config_item`
* `src/src/snow/adapter.py`      — `PrtgDeviceAdapter.from_ci`
* `src/src/alt_prtg/models/*`    — Device / Group / Node data model

Trees (anytree `Node` graphs) are embedded as an arena: a list of entries
plus a parent-index list; children of a node are the indices that point to
it, in index order (anytree keeps children in attach order, and every build
in the source attaches nodes in increasing index order).  The PRTG platform
and the ServiceNow store are an explicit state record threaded through the
controller operations; every mutating REST call is recorded in a trace.
Python exceptions are an `Except Err` result; machine string/int values are
Lean `String`/`Nat`.
-/

namespace ReconcileSnowPrtg

/-- `snow/models/cmdb_ci.py` `Manufacturer`: resolved manufacturer reference. -/
structure Manufacturer where
  id : String
  name : String
deriving Repr, DecidableEq

/-- `snow/models/cmdb_ci.py` `ConfigItem`: one ServiceNow inventory record.
`ipAddress` holds the dotted string form of the validated `IPv4Address`
(`none` when the field did not parse), matching how the value is only ever
used through `str(...)`. -/
structure ConfigItem where
  id : String
  name : String
  ipAddress : Option String
  manufacturer : Option Manufacturer
  modelNumber : String
  stage : String
  category : String
  sysClass : String
  link : String
  prtgId : Option Nat
  isInternal : Bool
  hostName : Option String := none
  label : String := ""
deriving Repr, DecidableEq

/-- `alt_prtg/models/{device,group}.py`: a PRTG object wrapped by a tree
node.  `Device` and `Group` share id/name/priority/tags/location/is_active;
devices add host, service_url, icon and (via `PrtgDeviceAdapter`) the
backing ConfigItem.  One record covers both shapes, discriminated by
`isDevice`; group-only values keep the `Device` defaults.  Python's `set`
of tags is a list (every comparison in the embedded code is on equal
representatives).  `Status` plays no role in any embedded operation and is
omitted. -/
structure PObj where
  isDevice : Bool
  id : Option Nat
  name : String
  host : String := ""
  serviceUrl : String := ""
  priority : Nat := 3
  tags : List String := []
  location : String := ""
  icon : Option String := none
  isActive : Bool := true
  ci : Option ConfigItem := none
deriving Repr, DecidableEq

/-- A PRTG group (or probe) object as stored on the platform side. -/
structure PGrp where
  id : Nat
  parentId : Option Nat
  name : String
  priority : Nat := 3
  tags : List String := []
  location : String := ""
  isActive : Bool := true
deriving Repr, DecidableEq

/-- A PRTG device object as stored on the platform side. -/
structure PDev where
  id : Nat
  parentId : Nat
  name : String
  host : String := ""
  serviceUrl : String := ""
  priority : Nat := 3
  tags : List String := []
  icon : Option String := none
  isActive : Bool := true
deriving Repr, DecidableEq

/-- One mutating REST call issued against PRTG or ServiceNow. -/
inductive Call where
  | addGroup (name : String) (parentId : Nat)
  | addDevice (name : String) (parentId : Nat)
  | updateCI (ciId : String) (prtgId : Option Nat)
  | moveObject (objId : Nat) (parentId : Nat)
  | deleteObject (objId : Nat)
  | setField (objId : Nat) (field : String)
deriving Repr, DecidableEq

/-- Python exceptions raised by the embedded code. -/
inductive Err where
  | rootMismatch   -- sync.RootMismatchException
  | stopIteration  -- next() on an exhausted iterator
  | valueErr       -- ValueError
  | typeErr        -- TypeError
  | attrErr        -- AttributeError
  | keyErr         -- KeyError
  | objectNotFound -- prtg.exception.ObjectNotFound
  | snowErr        -- requests-level failure of a ServiceNow write
deriving Repr, DecidableEq

/-- The external state the controllers act on: the PRTG object graph, the
ServiceNow CI store, and the trace of mutating calls.  `snowFail` injects
the network failures of `update_prtg_id` (the write either succeeds
everywhere or raises for the CIs listed there). -/
structure Env where
  nextId : Nat := 1000
  pGroups : List PGrp := []
  pProbes : List PGrp := []
  pDevices : List PDev := []
  snowStore : List ConfigItem := []
  snowFail : List String := []
  trace : List Call := []
deriving Repr, DecidableEq

deriving instance DecidableEq for Except

/-- An anytree node graph as an arena: entry `i` has parent `par[i]`
(`none` for the root, which lives at index 0 in every tree the source
builds).  Children of `i` are the indices pointing at `i`, in index
order. -/
structure Forest where
  entries : List PObj
  par : List (Option Nat)
deriving Repr, DecidableEq

/-- Default object used for out-of-range arena reads (never reached on the
well-formed inputs the theorems quantify over). -/
def dfltObj : PObj := { isDevice := false, id := none, name := "" }

/-- Entry of node `i`. -/
def getE (f : Forest) (i : Nat) : PObj := f.entries.getD i dfltObj

/-- Replace the entry of node `i` (in-place mutation of a node's
`prtg_obj` attributes in the source). -/
def setE (f : Forest) (i : Nat) (o : PObj) : Forest :=
  { f with entries := f.entries.set i o }

/-- Children of node `i`: all indices whose parent pointer is `i`. -/
def childrenOf (par : List (Option Nat)) (i : Nat) : List Nat :=
  (List.range par.length).filter (fun j => par.getD j none = some i)

/-- Fuelled breadth-first traversal (anytree `LevelOrderIter`).  Each step
pops the queue head and enqueues its children; with parent pointers forming
a tree rooted at the initial queue, `par.length` fuel visits every
reachable node. -/
def bfsAux (par : List (Option Nat)) : Nat → List Nat → List Nat
  | 0, _ => []
  | _, [] => []
  | fuel + 1, i :: q => i :: bfsAux par fuel (q ++ childrenOf par i)

/-- Level-order node indices of the tree rooted at index 0
(`anytree.LevelOrderIter(root)`). -/
def bfsIdx (f : Forest) : List Nat :=
  bfsAux f.par f.par.length [0]

/-- Fuelled depth-first traversal (anytree `PreOrderIter`, used by
`anytree.search.find`). -/
def dfsAux (par : List (Option Nat)) : Nat → List Nat → List Nat
  | 0, _ => []
  | _, [] => []
  | fuel + 1, i :: st => i :: dfsAux par fuel (childrenOf par i ++ st)

/-- Pre-order node indices of the tree rooted at index 0. -/
def dfsIdx (f : Forest) : List Nat :=
  dfsAux f.par f.par.length [0]

/-- Ancestor indices of node `j`, nearest first (the reverse of anytree's
`node.path` without `j` itself).  Stops at the root (parent `none`). -/
def parentChain (par : List (Option Nat)) : Nat → Nat → List Nat
  | 0, _ => []
  | fuel + 1, j =>
    match par.getD j none with
    | none => []
    | some p => p :: parentChain par fuel p

/-- Level-order indices of the group (non-device) nodes — the
`LevelOrderIter(root, filter_=lambda n: not isinstance(n.prtg_obj, Device))`
iterator.  anytree applies the filter to the yielded nodes only, the
traversal itself is unchanged. -/
def groupIdx (f : Forest) : List Nat :=
  (bfsIdx f).filter (fun i => !(getE f i).isDevice)

/-- Level-order indices of the device nodes. -/
def deviceIdx (f : Forest) : List Nat :=
  (bfsIdx f).filter (fun i => (getE f i).isDevice)

/-! ### Python `dict` with insertion order

`_sync_groups` builds `{name: node}` by comprehension and pops matched
entries.  A Python dict keeps keys in first-insertion order; inserting an
existing key overwrites the value in place. -/

/-- Ordered-dict insert: overwrite in place if the key exists, else
append. -/
def dictInsert (m : List (String × Option Nat)) (k : String) (v : Option Nat) :
    List (String × Option Nat) :=
  match m with
  | [] => [(k, v)]
  | (k', v') :: rest =>
    if k' = k then (k', v) :: rest else (k', v') :: dictInsert rest k v

/-- Build the ordered dict from a list of key/value pairs (dict
comprehension). -/
def dictOfList (l : List (String × Option Nat)) : List (String × Option Nat) :=
  l.foldl (fun m p => dictInsert m p.1 p.2) []

/-- `dict.pop k`: value of `k` together with the dict without it. -/
def dictPop (m : List (String × Option Nat)) (k : String) :
    Option Nat × List (String × Option Nat) :=
  match m with
  | [] => (none, [])
  | (k', v') :: rest =>
    if k' = k then (v', rest)
    else
      let r := dictPop rest k
      (r.1, (k', v') :: r.2)

/-! ## PrtgController (`alt_prtg/controller.py`) and SnowController
(`snow/controller.py`)

Each controller method is a function on `Env`.  The per-field REST calls a
constructor makes after `add_group`/`add_device` (resume/pause,
set_priority, set_tags, set_location, set_service_url) are reflected
directly in the fields of the created platform record; the trace records
the object-level mutations (`addGroup`, `addDevice`, `moveObject`,
`deleteObject`, `updateCI`) and the field writes of `update_device`
(`setField`). -/

/-- `PrtgController._get_group`: platform group record as a model `Group`. -/
def asGroupObj (g : PGrp) : PObj :=
  { isDevice := false, id := some g.id, name := g.name, priority := g.priority,
    tags := g.tags, location := g.location, isActive := g.isActive }

/-- `PrtgController._get_device`: platform device record as a model
`Device`. -/
def asDeviceObj (d : PDev) : PObj :=
  { isDevice := true, id := some d.id, name := d.name, host := d.host,
    serviceUrl := d.serviceUrl, priority := d.priority, tags := d.tags,
    icon := d.icon, isActive := d.isActive }

/-- `PrtgController.add_group`: `ValueError` when the parent has no id,
otherwise create the group under the parent (fresh platform id) and return
it. -/
def add_group (env : Env) (g parent : PObj) : Except Err (Env × PObj) :=
  match parent.id with
  | none => .error .valueErr
  | some pid =>
    let rec' : PGrp :=
      { id := env.nextId, parentId := some pid, name := g.name,
        priority := g.priority, tags := g.tags, location := g.location,
        isActive := g.isActive }
    .ok ({ env with
            nextId := env.nextId + 1,
            pGroups := env.pGroups ++ [rec'],
            trace := env.trace ++ [.addGroup g.name pid] },
         asGroupObj rec')

/-- `PrtgController.add_device`: `ValueError` when the parent has no id,
otherwise create the device under the parent and return it. -/
def add_device (env : Env) (d parent : PObj) : Except Err (Env × PObj) :=
  match parent.id with
  | none => .error .valueErr
  | some pid =>
    let rec' : PDev :=
      { id := env.nextId, parentId := pid, name := d.name, host := d.host,
        serviceUrl := d.serviceUrl, priority := d.priority, tags := d.tags,
        icon := d.icon, isActive := d.isActive }
    .ok ({ env with
            nextId := env.nextId + 1,
            pDevices := env.pDevices ++ [rec'],
            trace := env.trace ++ [.addDevice d.name pid] },
         asDeviceObj rec')

/-- `snow/api.py` `update_prtg_id`: write the `u_prtg_id` field of one CI
record.  A CI listed in `snowFail` raises (injected transport failure). -/
def update_prtg_id (env : Env) (sysId : String) (v : Option Nat) : Except Err Env :=
  if sysId ∈ env.snowFail then .error .snowErr
  else
    .ok { env with
          snowStore :=
            env.snowStore.map (fun r => if r.id = sysId then { r with prtgId := v } else r),
          trace := env.trace ++ [.updateCI sysId v] }

/-- `SnowController.update_config_item`: clears the field first when
`prtg_id` is `None` (the empty-string write), then writes `prtg_id`. -/
def update_config_item (env : Env) (ci : ConfigItem) : Except Err Env :=
  match (if ci.prtgId = none then update_prtg_id env ci.id none else .ok env) with
  | .error er => .error er
  | .ok env1 => update_prtg_id env1 ci.id ci.prtgId

/-- Ids of the devices present on the platform. -/
def envDevIds (env : Env) : List Nat := env.pDevices.map (·.id)

/-- `PrtgController.get_device` (by id): `ObjectNotFound` when absent. -/
def get_device (env : Env) (did : Nat) : Except Err PDev :=
  match env.pDevices.find? (fun d => d.id = did) with
  | none => .error .objectNotFound
  | some d => .ok d

/-- `client.get_group` falling back to `client.get_probe` on
`ObjectNotFound` — the pattern used everywhere a container is fetched by
id. -/
def groupOrProbe (env : Env) (gid : Nat) : Option PGrp :=
  match env.pGroups.find? (fun g => g.id = gid) with
  | some g => some g
  | none => env.pProbes.find? (fun g => g.id = gid)

/-- Fuel bound for walks over the platform's container graph. -/
def containerFuel (env : Env) : Nat :=
  env.pGroups.length + env.pProbes.length + 1

/-- Ids of the containers on the parent chain starting at (and including)
`gid`. -/
def groupAncestors (env : Env) : Nat → Nat → List Nat
  | 0, _ => []
  | fuel + 1, gid =>
    gid ::
      (match groupOrProbe env gid with
       | none => []
       | some g =>
         match g.parentId with
         | none => []
         | some p => groupAncestors env fuel p)

/-- The PRTG table API filtered by an object id returns the subtree's
objects: the devices transitively under container `gid`
(`client.get_devices_by_group_id`). -/
def descendantDevices (env : Env) (gid : Nat) : List PDev :=
  env.pDevices.filter (fun d => gid ∈ groupAncestors env (containerFuel env) d.parentId)

/-- The groups strictly below container `gid`
(`client.get_groups_by_group_id`). -/
def descendantGroups (env : Env) (gid : Nat) : List PGrp :=
  env.pGroups.filter (fun g =>
    match g.parentId with
    | none => false
    | some p => gid ∈ groupAncestors env (containerFuel env) p)

/-- `PrtgController.get_group_by_name`: name-containing search narrowed to
exact matches (optionally under an ancestor); `ValueError` when the parent
has no id, when nothing matches, or when more than one group matches. -/
def get_group_by_name (env : Env) (name : String) (parent : Option PObj := none) :
    Except Err PObj :=
  let poolE : Except Err (List PGrp) :=
    match parent with
    | none => .ok env.pGroups
    | some p =>
      match p.id with
      | none => .error .valueErr
      | some pid => .ok (descendantGroups env pid)
  match poolE with
  | .error er => .error er
  | .ok pool =>
    match pool.filter (fun g => g.name = name) with
    | [g] => .ok (asGroupObj g)
    | _ => .error .valueErr

/-- `PrtgController.get_groups`: groups under a parent (`ValueError` when
the parent has no id). -/
def get_groups (env : Env) (parent : Option PObj := none) : Except Err (List PObj) :=
  match parent with
  | none => .ok (env.pGroups.map asGroupObj)
  | some p =>
    match p.id with
    | none => .error .valueErr
    | some pid => .ok ((descendantGroups env pid).map asGroupObj)

/-- `PrtgController.get_devices`: devices under a parent (`ValueError`
when the parent has no id). -/
def get_devices (env : Env) (parent : Option PObj := none) : Except Err (List PObj) :=
  match parent with
  | none => .ok (env.pDevices.map asDeviceObj)
  | some p =>
    match p.id with
    | none => .error .valueErr
    | some pid => .ok ((descendantDevices env pid).map asDeviceObj)

/-- Apply an update to the platform device with id `did`. -/
def mapDev (env : Env) (did : Nat) (f : PDev → PDev) : Env :=
  { env with pDevices := env.pDevices.map (fun r => if r.id = did then f r else r) }

/-- One conditional field write of `update_device`: when the expected and
live values differ, issue the corresponding `set` call and apply it to the
platform record. -/
def fieldStep (env : Env) (c : Prop) [Decidable c] (did : Nat) (fld : String)
    (f : PDev → PDev) : Env :=
  if c then
    { mapDev env did f with trace := env.trace ++ [.setField did fld] }
  else env

/-- `PrtgController.update_device`: fetch the live device, then write each
mutable field that differs, one call per field; the icon is only written
when the expected icon is set. -/
def update_device (env : Env) (d : PObj) : Except Err Env :=
  match d.id with
  | none => .error .valueErr
  | some did =>
    match get_device env did with
    | .error er => .error er
    | .ok cur =>
      let env := fieldStep env (d.name ≠ cur.name) did "name"
        (fun r => { r with name := d.name })
      let env := fieldStep env (d.host ≠ cur.host) did "host"
        (fun r => { r with host := d.host })
      let env := fieldStep env (d.serviceUrl ≠ cur.serviceUrl) did "serviceurl"
        (fun r => { r with serviceUrl := d.serviceUrl })
      let env := fieldStep env (d.priority ≠ cur.priority) did "priority"
        (fun r => { r with priority := d.priority })
      let env := fieldStep env (d.tags ≠ cur.tags) did "tags"
        (fun r => { r with tags := d.tags })
      let env := fieldStep env (d.icon.isSome ∧ d.icon ≠ cur.icon) did "icon"
        (fun r => { r with icon := d.icon })
      .ok env

/-- `PrtgController.move_object`: `ValueError` when either id is missing,
else repoint the object's parent. -/
def move_object (env : Env) (obj parent : PObj) : Except Err Env :=
  match obj.id with
  | none => .error .valueErr
  | some oid =>
    match parent.id with
    | none => .error .valueErr
    | some pid =>
      .ok { mapDev env oid (fun r => { r with parentId := pid }) with
            pGroups := env.pGroups.map
              (fun g => if g.id = oid then { g with parentId := some pid } else g),
            trace := env.trace ++ [.moveObject oid pid] }

/-- `PrtgController.delete_object`: `ValueError` when the id is missing,
else remove the object from the platform. -/
def delete_object (env : Env) (obj : PObj) : Except Err Env :=
  match obj.id with
  | none => .error .valueErr
  | some oid =>
    .ok { env with
          pGroups := env.pGroups.filter (fun g => g.id ≠ oid),
          pDevices := env.pDevices.filter (fun d => d.id ≠ oid),
          trace := env.trace ++ [.deleteObject oid] }

/-! ## `src/src/sync.py` -/

/-- Python `str.startswith`: character-level prefix test. -/
def pyStartsWith (s pre : String) : Bool :=
  pre.data.isPrefixOf s.data

/-- The non-root half of `_sync_groups`: walk the remaining expected group
nodes in level order; for each, take the first name in the current-group
dict that starts with the expected name, pop it and stamp its id onto the
expected node. -/
def stampLoop : List Nat → Forest → List (String × Option Nat) → Forest
  | [], f, _ => f
  | i :: rest, f, m =>
    match m.find? (fun p => pyStartsWith p.1 ((getE f i).name)) with
    | none => stampLoop rest f m
    | some hit =>
      let r := dictPop m hit.1
      stampLoop rest (setE f i { getE f i with id := r.1 }) r.2

/-- `_sync_groups`: compare the two roots (current must start with
expected — `RootMismatchException` otherwise), copy the current root id
onto the expected root, then resolve the remaining expected group ids by
first-prefix name matching against a `{name: node}` dict of the current
groups. -/
def sync_groups (expected current : Forest) : Except Err Forest :=
  match groupIdx expected, groupIdx current with
  | eRoot :: eRest, cRoot :: cRest =>
    let eObj := getE expected eRoot
    let cObj := getE current cRoot
    if ¬ pyStartsWith cObj.name eObj.name then .error .rootMismatch
    else
      let f := setE expected eRoot { eObj with id := cObj.id }
      let m := dictOfList (cRest.map (fun i => ((getE current i).name, (getE current i).id)))
      .ok (stampLoop eRest f m)
  | _, _ => .error .stopIteration

/-- The group-creation recovery of `sync_trees`: create the collected
missing groups in root-to-leaf order, each under its (by then resolved)
parent node, stamping the fresh id onto the expected node. -/
def createGroups (f : Forest) (env : Env) : List Nat → Env × Except Err Forest
  | [] => (env, .ok f)
  | a :: rest =>
    match f.par.getD a none with
    | none => (env, .error .attrErr)
    | some ap =>
      match add_group env (getE f a) (getE f ap) with
      | .error er => (env, .error er)
      | .ok (env', newG) =>
        createGroups (setE f a { getE f a with id := newG.id }) env' rest

/-- Tail of the add loop for one device: stamp the new platform id onto
the node and its ConfigItem, then write the id back to ServiceNow. -/
def finishDevice (f : Forest) (env : Env) (j : Nat) (newDev : PObj) :
    Env × Except Err Forest :=
  let e := getE f j
  match e.ci with
  | none => (env, .error .attrErr)
  | some ci =>
    let ci' := { ci with prtgId := newDev.id }
    let f' := setE f j { e with id := newDev.id, ci := some ci' }
    match update_config_item env ci' with
    | .error er => (env, .error er)
    | .ok env' => (env', .ok f')

/-- The group-node list collected by the `ValueError` recovery of
`sync_trees` for device `j` with parent `pj`: the parent plus the nearest
ancestors (`reversed(path[1:-2])`) while they have no id. -/
def groupsToAddFor (f : Forest) (j pj : Nat) : List Nat :=
  pj :: (((parentChain f.par f.par.length j).drop 1).dropLast.takeWhile
    (fun a => (getE f a).id = none))

/-- Body of the `sync_trees` add loop for one missing device node `j`:
try `add_device` under the node's parent; on `ValueError` (parent id
missing) collect the parent plus the nearest unresolved ancestors
(`reversed(device_node.path[1:-2])`, stopping at the first resolved one),
create them root-to-leaf, and retry. -/
def processDevice (f : Forest) (env : Env) (j : Nat) : Env × Except Err Forest :=
  match f.par.getD j none with
  | none => (env, .error .attrErr)
  | some pj =>
    match add_device env (getE f j) (getE f pj) with
    | .ok (env', newDev) => finishDevice f env' j newDev
    | .error _ =>
      match createGroups f env (groupsToAddFor f j pj).reverse with
      | (env', .error er) => (env', .error er)
      | (env', .ok f') =>
        match add_device env' (getE f' j) (getE f' pj) with
        | .error er => (env', .error er)
        | .ok (env'', newDev) => finishDevice f' env'' j newDev

/-- The `sync_trees` add loop over the missing-device nodes.  A raised
per-device error aborts the remaining loop (there is no per-device
handler around the loop body). -/
def addLoop (f : Forest) (env : Env) : List Nat → Env × Except Err Forest
  | [] => (env, .ok f)
  | j :: rest =>
    match processDevice f env j with
    | (env', .error er) => (env', .error er)
    | (env', .ok f') => addLoop f' env' rest

/-- `sync_trees`: resolve group ids, compute `device_to_add` (expected
devices whose id is missing or not among the current tree's device ids),
run the add loop, and return the added devices' objects. -/
def sync_trees (expected current : Forest) (env : Env) :
    Env × Except Err (Forest × List PObj) :=
  match sync_groups expected current with
  | .error er => (env, .error er)
  | .ok f =>
    let currentIds : List (Option Nat) := (deviceIdx current).map (fun i => (getE current i).id)
    let toAdd := (deviceIdx f).filter
      (fun j => decide ((getE f j).id = none ∨ (getE f j).id ∉ currentIds))
    match addLoop f env toAdd with
    | (env', .error er) => (env', .error er)
    | (env', .ok f') => (env', .ok (f', toAdd.map (fun j => getE f' j)))

/-- Modelled from the spec: `sync_device` calls
`current_controller.get_device(expected_device.id, get_parent=True)` to
fetch the device together with its live parent, but the controller under
`src` only exposes `get_device(device_id)` and a separate
`get_parent(obj)`.  Following §4.3 Step 3 ("the device's live parent
group id") this performs the `get_device` + `get_parent` pair: the device
record (`ObjectNotFound` when absent) and its parent container. -/
def get_device_with_parent (env : Env) (did : Nat) : Except Err (PDev × PObj) :=
  match get_device env did with
  | .error er => .error er
  | .ok d =>
    match groupOrProbe env d.parentId with
    | none => .error .objectNotFound
    | some g => .ok (d, asGroupObj g)

/-- The group lookup loop of `sync_device`: walk the non-root expected
groups; while the global name lookup succeeds keep the found group as
`existing_group`; at the first failure everything from that node on is
queued for creation (the loop breaks early because later names could match
wrong subgroups). -/
def findCreateSplit (env : Env) (f : Forest) : List Nat → PObj → PObj × List PObj
  | [], ex => (ex, [])
  | i :: rest, ex =>
    match get_group_by_name env (getE f i).name with
    | .ok g => findCreateSplit env f rest g
    | .error _ => (ex, getE f i :: rest.map (fun k => getE f k))

/-- The group creation loop of `sync_device`: each missing group is added
under the previous `existing_group`, which is then replaced by the new
group. -/
def createChain (env : Env) : List PObj → PObj → Env × Except Err PObj
  | [], ex => (env, .ok ex)
  | g :: rest, ex =>
    match add_group env g ex with
    | .error er => (env, .error er)
    | .ok (env', newG) => createChain env' rest newG

/-- Steps (3)–(4) of `sync_device`: when the live parent differs from the
resolved group, move the device there, then — if the vacated former parent
now has no groups and no devices — delete it.  No further ancestor is
examined. -/
def moveAndPrune (env : Env) (dev existing curParent : PObj) : Env × Except Err Unit :=
  if curParent.id ≠ existing.id then
    match move_object env dev existing with
    | .error er => (env, .error er)
    | .ok env =>
      match get_groups env (some curParent), get_devices env (some curParent) with
      | .ok gs, .ok ds =>
        if gs = [] ∧ ds = [] then
          match delete_object env curParent with
          | .error er => (env, .error er)
          | .ok env => (env, .ok ())
        else (env, .ok ())
      | .error er, _ => (env, .error er)
      | _, .error er => (env, .error er)
  else (env, .ok ())

/-- `sync_device`: (1) create missing intermediate groups, (2) update the
device's details, (3) move the device when its live parent differs from
the resolved one, (4) delete the vacated former parent when it has no
groups and no devices left.  A device without an id is simply created
(with its id written back to ServiceNow). -/
def sync_device (expected : Forest) (env : Env) : Env × Except Err PObj :=
  match (dfsIdx expected).find? (fun i => (getE expected i).isDevice) with
  | none => (env, .error .attrErr)
  | some devIdx =>
    let dev := getE expected devIdx
    let parentRes : Except Err (Option PObj) :=
      match dev.id with
      | none => .ok none
      | some did =>
        match get_device_with_parent env did with
        | .error _ => .error .valueErr
        | .ok (_, curParent) => .ok (some curParent)
    match parentRes with
    | .error er => (env, .error er)
    | .ok curParent? =>
      match groupIdx expected with
      | [] => (env, .error .stopIteration)
      | rootIdx :: restGroups =>
        match get_group_by_name env (getE expected rootIdx).name with
        | .error er => (env, .error er)
        | .ok root =>
          let split := findCreateSplit env expected restGroups root
          match createChain env split.2 split.1 with
          | (env, .error er) => (env, .error er)
          | (env, .ok existing) =>
            match dev.id, curParent? with
            | none, _ =>
              match add_device env dev existing with
              | .error er => (env, .error er)
              | .ok (env', newDev) =>
                match dev.ci with
                | none => (env', .error .attrErr)
                | some ci =>
                  match update_config_item env' { ci with prtgId := newDev.id } with
                  | .error er => (env', .error er)
                  | .ok env'' => (env'', .ok newDev)
            | some did, some curParent =>
              match update_device env dev with
              | .error er => (env, .error er)
              | .ok env =>
                match moveAndPrune env dev existing curParent with
                | (env, .error er) => (env, .error er)
                | (env, .ok _) =>
                  match get_device env did with
                  | .error er => (env, .error er)
                  | .ok d => (env, .ok (asDeviceObj d))
            | some _, none => (env, .error .typeErr)

/-! ## `snow/adapter.py` — `PrtgDeviceAdapter.from_ci` -/

/-- A field reference appearing in one of the `FORMAT_MAP` name-format
templates. -/
inductive FieldRef where
  | manufacturerName
  | modelNumber
  | ipAddress
  | hostName
  | label
deriving Repr, DecidableEq

/-- `FORMAT_MAP`: ServiceNow choice-list name → the field references of its
template, in template order. -/
def FORMAT_MAP : List (String × List FieldRef) :=
  [("ip only", [.manufacturerName, .modelNumber, .ipAddress]),
   ("hostname + ip", [.manufacturerName, .modelNumber, .hostName, .ipAddress]),
   ("label + ip", [.manufacturerName, .modelNumber, .label, .ipAddress])]

/-- Attribute access of `_check_required_fields`
(`reduce(getattr, key_name.split('.'), ci)`): dereferencing
`manufacturer.name` on a `None` manufacturer raises `AttributeError`. -/
def fieldValue (ci : ConfigItem) : FieldRef → Except Err (Option String)
  | .manufacturerName =>
    match ci.manufacturer with
    | none => .error .attrErr
    | some m => .ok (some m.name)
  | .modelNumber => .ok (some ci.modelNumber)
  | .ipAddress => .ok ci.ipAddress
  | .hostName => .ok ci.hostName
  | .label => .ok (some ci.label)

/-- `value is None or value == ''`. -/
def isMissing : Option String → Bool
  | none => true
  | some s => s = ""

/-- `_check_required_fields`: the template fields whose value is absent,
in template order. -/
def check_required_fields (ci : ConfigItem) : List FieldRef → Except Err (List FieldRef)
  | [] => .ok []
  | r :: rest =>
    match fieldValue ci r with
    | .error er => .error er
    | .ok v =>
      match check_required_fields ci rest with
      | .error er => .error er
      | .ok ms => if isMissing v then .ok (r :: ms) else .ok ms

/-- Python `str(x)` on an optional value (`str(None) = "None"`). -/
def pyStr (v : Option String) : String := v.getD "None"

/-- `name_format.format_map(...)`: render one of the three templates.
Attribute access on a `None` manufacturer raises. -/
def renderName (ci : ConfigItem) (key : String) : Except Err String :=
  match ci.manufacturer with
  | none => .error .attrErr
  | some m =>
    if key = "ip only" then
      .ok (m.name ++ " " ++ ci.modelNumber ++ " (" ++ pyStr ci.ipAddress ++ ")")
    else if key = "hostname + ip" then
      .ok (m.name ++ " " ++ ci.modelNumber ++ " " ++ pyStr ci.hostName
            ++ " (" ++ pyStr ci.ipAddress ++ ")")
    else if key = "label + ip" then
      .ok (m.name ++ " " ++ ci.modelNumber ++ " " ++ ci.label
            ++ " (" ++ pyStr ci.ipAddress ++ ")")
    else .error .keyErr

/-- Python set literal `{ci.stage, ci.category}` (one element when the two
coincide). -/
def mkTags (stage category : String) : List String :=
  if stage = category then [stage] else [stage, category]

/-- Icon resolution: `Icon[manufacturer.name.upper()]`, `KeyError`
recovered by the `'VMware, Inc.'` special case, `AttributeError` (no
manufacturer) recovered by leaving the icon unset.  `iconTable` is the
name set of the external `prtg.Icon` enum. -/
def iconFor (iconTable : List String) (m : Option Manufacturer) : Option String :=
  match m with
  | none => none
  | some m =>
    if m.name.toUpper ∈ iconTable then some m.name.toUpper
    else if m.name = "VMware, Inc." then some "VMWARE"
    else none

/-- The tail of `PrtgDeviceAdapter.from_ci` after the display name is
settled: `Used for` (stage) and `Category` must be non-empty
(`ValueError`); the host is `str(ci.ip_address)`; the tags are the
verbatim stage/category set; the service URL is the CI link. -/
def from_ci_finish (iconTable : List String) (ci : ConfigItem) (name : String) :
    Except Err PObj :=
  if ci.stage = "" then .error .valueErr
  else if ci.category = "" then .error .valueErr
  else
    .ok { isDevice := true, id := ci.prtgId, name := name,
          host := pyStr ci.ipAddress, serviceUrl := ci.link, priority := 3,
          tags := mkTags ci.stage ci.category, location := "",
          icon := iconFor iconTable ci.manufacturer, isActive := true,
          ci := some ci }

/-- `PrtgDeviceAdapter.from_ci`: build the expected PRTG device from a
ConfigItem.  With a format key, missing template fields fall back to the
default `'ip only'` format; without one the CI name is used. -/
def from_ci (iconTable : List String) (ci : ConfigItem) (format_key : Option String) :
    Except Err PObj :=
  let nameE : Except Err String :=
    match format_key with
    | some key =>
      match FORMAT_MAP.find? (fun p => p.1 = key) with
      | none => .error .keyErr
      | some entry =>
        match check_required_fields ci entry.2 with
        | .error er => .error er
        | .ok missing =>
          renderName ci (if missing ≠ [] then "ip only" else key)
    | none => .ok ci.name
  match nameE with
  | .error er => .error er
  | .ok name => from_ci_finish iconTable ci name

/-! ## `PrtgController.get_tree` -/

/-- The upward walk of `get_tree`: follow `parentid` from `pid` until an
already-materialised node is reached, collecting the missing containers
nearest-first.  Returns the collected chain and the forest index of the
node reached.  Fuel exhaustion (a parent cycle — the Python loop would
never terminate) and an unknown container id are errors. -/
def climb (env : Env) (idxMap : List (Nat × Nat)) : Nat → Nat → Except Err (List PGrp × Nat)
  | 0, _ => .error .objectNotFound
  | fuel + 1, pid =>
    match idxMap.find? (fun p => p.1 = pid) with
    | some hit => .ok ([], hit.2)
    | none =>
      match groupOrProbe env pid with
      | none => .error .objectNotFound
      | some sub =>
        match sub.parentId with
        | none => .error .objectNotFound
        | some up =>
          match climb env idxMap fuel up with
          | .error er => .error er
          | .ok r => .ok (sub :: r.1, r.2)

/-- Attach a downward chain of objects under forest index `tgt`, recording
each created node's platform id in the id→index map. -/
def attachChain (f : Forest) (idxMap : List (Nat × Nat)) (tgt : Nat) :
    List PObj → Forest × List (Nat × Nat)
  | [] => (f, idxMap)
  | o :: rest =>
    let idx := f.entries.length
    attachChain
      { entries := f.entries ++ [o], par := f.par ++ [some tgt] }
      ((o.id.getD 0, idx) :: idxMap) idx rest

/-- The device loop of `get_tree` over the devices under the root:
devices named `"Probe Device"` are skipped; every other device is spliced
in under its (lazily materialised) ancestor chain. -/
def buildTree (env : Env) : List PDev → Forest → List (Nat × Nat) → Except Err Forest
  | [], f, _ => .ok f
  | dd :: rest, f, idxMap =>
    if dd.name = "Probe Device" then buildTree env rest f idxMap
    else
      match climb env idxMap (containerFuel env) dd.parentId with
      | .error er => .error er
      | .ok r =>
        let chain := (r.1.map asGroupObj).reverse ++ [asDeviceObj dd]
        let step := attachChain f idxMap r.2 chain
        buildTree env rest step.1 step.2

/-- `PrtgController.get_tree`: root the forest at the given group
(`ValueError` when it has no id) and build the current tree bottom-up from
the devices transitively under it. -/
def get_tree (env : Env) (g : PObj) : Except Err Forest :=
  match g.id with
  | none => .error .valueErr
  | some gid =>
    buildTree env (descendantDevices env gid)
      { entries := [g], par := [none] } [(gid, 0)]

/-! ## Predicates and concrete fixtures used by the verification results -/

/-- Is a trace entry a `delete_object` call? -/
def isDelete : Call → Bool
  | .deleteObject _ => true
  | _ => false

/-- Is a trace entry an `add_group` call? -/
def isAddGroup : Call → Bool
  | .addGroup _ _ => true
  | _ => false

/-- The trace grew by a segment containing no `delete_object` call. -/
def noDeleteStep (a b : Env) : Prop :=
  ∃ ext, b.trace = a.trace ++ ext ∧ ext.filter isDelete = []

/-- The trace grew by a segment containing at most one `delete_object`
call. -/
def deleteBudget (a b : Env) : Prop :=
  ∃ ext, b.trace = a.trace ++ ext ∧ (ext.filter isDelete).length ≤ 1

/-- Well-formedness of a tree (§3 data model: only Device nodes are
leaves): every node that is some node's parent is a group. -/
def parentsAreGroups (f : Forest) : Bool :=
  (List.range f.par.length).all (fun j =>
    match f.par.getD j none with
    | none => true
    | some a => !(getE f a).isDevice)

/-- Every device id carried by a tree exists on the platform (the tree was
fetched from it). -/
def treeIdsOnPlatform (c : Forest) (env : Env) : Bool :=
  (deviceIdx c).all (fun i =>
    match (getE c i).id with
    | none => true
    | some d => (envDevIds env).contains d)

/-- Every platform device id appears among a tree's device ids (the tree
was rebuilt from the full platform state). -/
def platformIdsInTree (env : Env) (c : Forest) : Bool :=
  (envDevIds env).all (fun d =>
    (deviceIdx c).any (fun i => (getE c i).id == some d))

/-- A device node is resolved: it carries an id of a device that exists on
the platform. -/
def resolvedDev (f : Forest) (env : Env) (i : Nat) : Prop :=
  (getE f i).isDevice = true → ∃ d, (getE f i).id = some d ∧ d ∈ envDevIds env

/-- The chain of parent links walked by the creation loop, in creation
order: the first element's parent is `a`, and each element is the parent
of the next. -/
def linkedFrom (par : List (Option Nat)) : Nat → List Nat → Prop
  | _, [] => True
  | a, b :: rest => par.getD b none = some a ∧ linkedFrom par b rest

/-- Specification of the trace segment emitted by the creation loop:
one `add_group` call per missing group in creation (root-to-leaf) order,
the first parented to the already-resolved ancestor `p`, each later one
parented to the id `fresh`, `fresh + 1`, … handed to its predecessor. -/
def creationCalls : List String → Nat → Nat → List Call
  | [], _, _ => []
  | n :: ns, p, fresh => .addGroup n p :: creationCalls ns fresh (fresh + 1)

/-- Fixture: a customer-managed ServiceNow CI without a manufacturer. -/
def mkCi (n : String) : ConfigItem :=
  { id := "CI-" ++ n, name := n, ipAddress := some "10.0.0.1",
    manufacturer := none, modelNumber := "M1", stage := "Production",
    category := "Server", sysClass := "Linux Server",
    link := "https://snow/" ++ n, prtgId := none, isInternal := false }

/-- C1 witness fixture: expected tree `Acme Corp → StageA → dev1`. -/
def e1w : Forest :=
  { entries :=
      [ { isDevice := false, id := none, name := "Acme Corp" },
        { isDevice := false, id := none, name := "StageA" },
        { isDevice := true, id := none, name := "dev1", ci := some (mkCi "dev1") } ],
    par := [none, some 0, some 1] }

/-- C1 witness fixture: current tree holding only the decorated root. -/
def c1w : Forest :=
  { entries := [ { isDevice := false, id := some 10, name := "Acme Corp (decor)" } ],
    par := [none] }

/-- C1 witness fixture: the platform state before the first run. -/
def env0w : Env := { nextId := 100 }

/-- C1 witness fixture: the current tree rebuilt after the first run
(root plus the device created with id 101). -/
def c2w : Forest :=
  { entries :=
      [ { isDevice := false, id := some 10, name := "Acme Corp (decor)" },
        { isDevice := true, id := some 101, name := "dev1" } ],
    par := [none, some 0] }

/-- C2 witness fixture: a current root that is not a prefix extension of
the expected root. -/
def cBadRoot : Forest :=
  { entries := [ { isDevice := false, id := some 10, name := "Beta Corp" } ],
    par := [none] }

/-- C3 counterexample fixture: expected tree `R → A → B → dev1`. -/
def e3cex : Forest :=
  { entries :=
      [ { isDevice := false, id := none, name := "R" },
        { isDevice := false, id := none, name := "A" },
        { isDevice := false, id := none, name := "B" },
        { isDevice := true, id := none, name := "dev1", ci := some (mkCi "dev1") } ],
    par := [none, some 0, some 1, some 2] }

/-- C3 counterexample fixture: current tree with a group named `B` but no
group named `A`. -/
def c3cex : Forest :=
  { entries :=
      [ { isDevice := false, id := some 10, name := "R" },
        { isDevice := false, id := some 77, name := "B" } ],
    par := [none, some 0] }

/-- C3 witness fixture: expected tree `R → A → B → dev1` against a bare
current root, so both intermediate groups are missing. -/
def c3w : Forest :=
  { entries := [ { isDevice := false, id := some 10, name := "R" } ],
    par := [none] }

/-- C4 fixture: expected tree `R → S1 → Server`. -/
def e4cex : Forest :=
  { entries :=
      [ { isDevice := false, id := none, name := "R" },
        { isDevice := false, id := none, name := "S1" },
        { isDevice := false, id := none, name := "Server" } ],
    par := [none, some 0, some 1] }

/-- C4 fixture: current tree `R → S2 → Server`, the `Server` group (id 99)
sitting under the other stage. -/
def c4cex : Forest :=
  { entries :=
      [ { isDevice := false, id := some 10, name := "R" },
        { isDevice := false, id := some 50, name := "S2" },
        { isDevice := false, id := some 99, name := "Server" } ],
    par := [none, some 0, some 1] }

/-- C4 fixture: the stamped expected tree `_sync_groups` produces from
`e4cex`/`c4cex`: the root took id 10, `S1` stayed unresolved, and the
`Server` group under `S1` took the id 99 of the `Server` group sitting
under `S2`. -/
def f4w : Forest :=
  { entries :=
      [ { isDevice := false, id := some 10, name := "R" },
        { isDevice := false, id := none, name := "S1" },
        { isDevice := false, id := some 99, name := "Server" } ],
    par := [none, some 0, some 1] }

/-- C3 witness fixture: the expected tree `R → StageA → dev1` with the
root already stamped (id 10) and the intermediate group unresolved. -/
def f3ww : Forest :=
  { entries :=
      [ { isDevice := false, id := some 10, name := "Acme Corp" },
        { isDevice := false, id := none, name := "StageA" },
        { isDevice := true, id := none, name := "dev1", ci := some (mkCi "dev1") } ],
    par := [none, some 0, some 1] }

/-- C3 witness fixture: platform state after processing the fixture
device — `StageA` created (id 100) under the root (id 10), the device
created (id 101) under it, and the id written back. -/
def env3aft : Env :=
  { nextId := 102,
    pGroups := [ { id := 100, parentId := some 10, name := "StageA" } ],
    pDevices := [ { id := 101, parentId := 100, name := "dev1" } ],
    trace := [.addGroup "StageA" 10, .addDevice "dev1" 100,
              .updateCI "CI-dev1" (some 101)] }

/-- C3 witness fixture: the expected tree after processing — both the
group and the device stamped with their new platform ids. -/
def f3aft : Forest :=
  { entries :=
      [ { isDevice := false, id := some 10, name := "Acme Corp" },
        { isDevice := false, id := some 100, name := "StageA" },
        { isDevice := true, id := some 101, name := "dev1",
          ci := some { mkCi "dev1" with prtgId := some 101 } } ],
    par := [none, some 0, some 1] }

/-- C5 fixture: platform state `Root(1) → StageA(2) → CategoryX(3) →
DeviceA(10)`. -/
def env5cex : Env :=
  { nextId := 100,
    pGroups := [ { id := 1, parentId := none, name := "Root" },
                 { id := 2, parentId := some 1, name := "StageA" },
                 { id := 3, parentId := some 2, name := "CategoryX" } ],
    pDevices := [ { id := 10, parentId := 3, name := "DeviceA", host := "h" } ] }

/-- C5 fixture: expected tree `Root → StageB → CategoryY → DeviceA`. -/
def e5cex : Forest :=
  { entries :=
      [ { isDevice := false, id := none, name := "Root" },
        { isDevice := false, id := none, name := "StageB" },
        { isDevice := false, id := none, name := "CategoryY" },
        { isDevice := true, id := some 10, name := "DeviceA", host := "h",
          ci := some (mkCi "DeviceA") } ],
    par := [none, some 0, some 1, some 2] }

/-- C6/C7 fixture: a `Server`-category CI without a manufacturer. -/
def ciServer : ConfigItem := mkCi "srv1"

/-- C6 fixture: the same CI with the `Virtualization` category. -/
def ciVirt : ConfigItem := { ciServer with category := "Virtualization" }

/-- C7 fixture: a CI whose stage contains a space. -/
def ciPre : ConfigItem := { ciServer with stage := "Pre Production" }

/-- C8 fixture: expected tree `R → {d1, d2}`, two missing devices. -/
def e8cex : Forest :=
  { entries :=
      [ { isDevice := false, id := none, name := "R" },
        { isDevice := true, id := none, name := "d1", ci := some (mkCi "d1") },
        { isDevice := true, id := none, name := "d2", ci := some (mkCi "d2") } ],
    par := [none, some 0, some 0] }

/-- C8 fixture: current tree holding only the root. -/
def c8cex : Forest :=
  { entries := [ { isDevice := false, id := some 10, name := "R" } ],
    par := [none] }

/-- C8 fixture: platform state where the ServiceNow write for `d1`'s CI
fails. -/
def env8cex : Env := { nextId := 100, snowFail := ["CI-d1"] }

/-- C8 witness fixture: the expected tree after `_sync_groups` stamped the
root with the current root's id. -/
def f8w : Forest :=
  { entries :=
      [ { isDevice := false, id := some 10, name := "R" },
        { isDevice := true, id := none, name := "d1", ci := some (mkCi "d1") },
        { isDevice := true, id := none, name := "d2", ci := some (mkCi "d2") } ],
    par := [none, some 0, some 0] }

/-- C8 witness fixture: the platform state right after `d1` was created
and its ServiceNow write-back raised. -/
def env8aft : Env :=
  { nextId := 101,
    pDevices := [ { id := 100, parentId := 10, name := "d1" } ],
    snowFail := ["CI-d1"],
    trace := [.addDevice "d1" 10] }

/-- C9 witness fixture: a small ServiceNow store. -/
def env9w : Env :=
  { nextId := 100, snowStore := [mkCi "a", mkCi "b"] }

/-- C10 witness fixture: a platform with a probe device and a real device
under the root. -/
def env10w : Env :=
  { nextId := 500,
    pGroups := [ { id := 1, parentId := none, name := "Root" },
                 { id := 2, parentId := some 1, name := "G2" } ],
    pDevices := [ { id := 20, parentId := 2, name := "Probe Device" },
                  { id := 21, parentId := 2, name := "server1" } ] }

/-- C10 witness fixture: the root group handed to `get_tree`. -/
def root10w : PObj := asGroupObj { id := 1, parentId := none, name := "Root" }

/-- C10 witness fixture: the current tree `get_tree` builds from
`env10w` — the probe device is absent, `server1` hangs under `G2`. -/
def f10w : Forest :=
  { entries :=
      [ root10w,
        asGroupObj { id := 2, parentId := some 1, name := "G2" },
        asDeviceObj { id := 21, parentId := 2, name := "server1" } ],
    par := [none, some 0, some 1] }

/-! ## Basic traversal lemmas -/

theorem bfsIdx_cons (f : Forest) (h : f.par ≠ []) :
    bfsIdx f = 0 :: bfsAux f.par (f.par.length - 1) (childrenOf f.par 0) := by
  obtain ⟨a, l, hl⟩ := List.exists_cons_of_ne_nil h
  simp [bfsIdx, hl, bfsAux]

theorem groupIdx_cons (f : Forest) (hg : (getE f 0).isDevice = false)
    (h : f.par ≠ []) :
    groupIdx f =
      0 :: (bfsAux f.par (f.par.length - 1) (childrenOf f.par 0)).filter
        (fun i => !(getE f i).isDevice) := by
  simp [groupIdx, bfsIdx_cons f h, List.filter_cons, hg]

/-! ## C2: root-mismatch gate -/

theorem sync_groups_mismatch (e c : Forest)
    (he : (getE e 0).isDevice = false) (hc : (getE c 0).isDevice = false)
    (hel : e.par ≠ []) (hcl : c.par ≠ [])
    (h : pyStartsWith (getE c 0).name (getE e 0).name = false) :
    sync_groups e c = .error .rootMismatch := by
  unfold sync_groups
  rw [groupIdx_cons e he hel, groupIdx_cons c hc hcl]
  simp [h]

theorem sync_groups_match (e c : Forest)
    (he : (getE e 0).isDevice = false) (hc : (getE c 0).isDevice = false)
    (hel : e.par ≠ []) (hcl : c.par ≠ [])
    (h : pyStartsWith (getE c 0).name (getE e 0).name = true) :
    ∃ f, sync_groups e c = .ok f := by
  unfold sync_groups
  rw [groupIdx_cons e he hel, groupIdx_cons c hc hcl]
  simp [h]

/-- C2.  Root-mismatch rejection: with group roots on both sides, a
current root name that starts with the expected root name lets
`_sync_groups` succeed (the sync proceeds past root validation), while any
other current root name makes `sync_trees` raise `RootMismatchException`
with the platform state — and hence the mutation-call trace — fully
unchanged. -/
theorem claim_C2_root_gate (e c : Forest) (env : Env)
    (he : (getE e 0).isDevice = false) (hc : (getE c 0).isDevice = false)
    (hel : e.par ≠ []) (hcl : c.par ≠ []) :
    (pyStartsWith (getE c 0).name (getE e 0).name = false →
      sync_trees e c env = (env, .error .rootMismatch))
    ∧ (pyStartsWith (getE c 0).name (getE e 0).name = true →
      ∃ f, sync_groups e c = .ok f) := by
  constructor
  · intro h
    unfold sync_trees
    rw [sync_groups_mismatch e c he hc hel hcl h]
  · intro h
    exact sync_groups_match e c he hc hel hcl h

/-- C2 witness: the mismatching pair `"Acme Corp"` / `"Beta Corp"` makes
`sync_trees` fail with no state change, and the decorated pair
`"Acme Corp"` / `"Acme Corp (decor)"` passes root validation. -/
theorem claim_C2_root_gate_witness :
    sync_trees e1w cBadRoot env0w = (env0w, .error .rootMismatch)
    ∧ ∃ f, sync_groups e1w c1w = .ok f :=
  ⟨(claim_C2_root_gate e1w cBadRoot env0w (by decide) (by decide) (by decide)
      (by decide)).1 (by decide),
   (claim_C2_root_gate e1w c1w env0w (by decide) (by decide) (by decide)
      (by decide)).2 (by decide)⟩

/-! ## C9: inventory write-back frame -/

theorem update_prtg_id_store (env env' : Env) (s : String) (v : Option Nat)
    (h : update_prtg_id env s v = .ok env') :
    env'.snowStore =
      env.snowStore.map (fun r => if r.id = s then { r with prtgId := v } else r) := by
  unfold update_prtg_id at h
  split at h
  · exact absurd h (by simp)
  · cases h
    rfl

theorem update_config_item_store (env env' : Env) (ci : ConfigItem)
    (h : update_config_item env ci = .ok env') :
    env'.snowStore =
      env.snowStore.map
        (fun r => if r.id = ci.id then { r with prtgId := ci.prtgId } else r) := by
  unfold update_config_item at h
  by_cases hp : ci.prtgId = none
  · rw [if_pos hp] at h
    cases h1 : update_prtg_id env ci.id none with
    | error er => rw [h1] at h; simp at h
    | ok env1 =>
      rw [h1] at h
      rw [update_prtg_id_store env1 env' ci.id ci.prtgId h,
        update_prtg_id_store env env1 ci.id none h1, List.map_map]
      apply List.map_congr_left
      intro r _
      by_cases hid : r.id = ci.id <;> simp [Function.comp, hid, hp]
  · rw [if_neg hp] at h
    exact update_prtg_id_store env env' ci.id ci.prtgId h

/-- C9.  Inventory write-back frame: a successful `update_config_item`
leaves the ServiceNow store pointwise identical except for the `prtg_id`
field, and even that field is only changed on the record with the given
CI's sys_id. -/
theorem claim_C9_writeback_frame (env : Env) (ci : ConfigItem) (env' : Env)
    (h : update_config_item env ci = .ok env') :
    List.Forall₂
      (fun r r' : ConfigItem =>
        r' = { r with prtgId := r'.prtgId } ∧ (r.id ≠ ci.id → r' = r))
      env.snowStore env'.snowStore := by
  rw [update_config_item_store env env' ci h]
  rw [List.forall₂_map_right_iff]
  rw [List.forall₂_same]
  intro r _
  by_cases hid : r.id = ci.id <;> simp [hid]

/-- C9 witness: updating the store `[CI-a, CI-b]` with a resolved
`CI-a`. -/
theorem claim_C9_writeback_frame_witness :
    List.Forall₂
      (fun r r' : ConfigItem =>
        r' = { r with prtgId := r'.prtgId } ∧ (r.id ≠ (mkCi "a").id → r' = r))
      env9w.snowStore
      ({ env9w with
          snowStore := [{ mkCi "a" with prtgId := some 7 }, mkCi "b"],
          trace := [.updateCI "CI-a" (some 7)] } : Env).snowStore :=
  claim_C9_writeback_frame env9w { mkCi "a" with prtgId := some 7 } _ (by rfl)

/-! ## C6 / C7: device adapter -/

theorem from_ci_finish_ok_tags (tbl : List String) (ci : ConfigItem) (nm : String)
    (d : PObj) (h : from_ci_finish tbl ci nm = .ok d) :
    d.tags = mkTags ci.stage ci.category := by
  unfold from_ci_finish at h
  split at h
  · exact absurd h (by simp)
  · split at h
    · exact absurd h (by simp)
    · cases h
      rfl

theorem from_ci_ok_tags (tbl : List String) (ci : ConfigItem) (fk : Option String)
    (d : PObj) (h : from_ci tbl ci fk = .ok d) :
    d.tags = mkTags ci.stage ci.category := by
  unfold from_ci at h
  dsimp only at h
  split at h
  · exact absurd h (by simp)
  · exact from_ci_finish_ok_tags tbl ci _ d h

/-- C6 counterexample: the claim says a manufacturer-less CI of category
`"Server"` raises a per-device validation error; in the code
`from_ci` performs no manufacturer check at all and accepts it. -/
theorem claim_C6_counterexample :
    ciServer.manufacturer = none ∧ ciServer.category = "Server" ∧
    (from_ci [] ciServer none).toOption.isSome = true := by
  decide

/-- C6 (amended).  `from_ci` does not validate the manufacturer: with no
name-format key, a ConfigItem whose manufacturer is absent is accepted for
every category — `"Server"` as much as `"Virtualization"` — with its icon
left unset; the only validation errors are an empty stage or an empty
category. -/
theorem claim_C6_no_manufacturer_validation (tbl : List String) (ci : ConfigItem)
    (hman : ci.manufacturer = none) (hs : ci.stage ≠ "") (hc : ci.category ≠ "") :
    ∃ d, from_ci tbl ci none = .ok d ∧ d.icon = none := by
  show ∃ d, from_ci_finish tbl ci ci.name = .ok d ∧ d.icon = none
  unfold from_ci_finish
  rw [if_neg hs, if_neg hc]
  exact ⟨_, rfl, by simp [iconFor, hman]⟩

/-- C6 witness: the `"Virtualization"` variant of the manufacturer-less CI
is accepted with no icon. -/
theorem claim_C6_no_manufacturer_validation_witness :
    ∃ d, from_ci [] ciVirt none = .ok d ∧ d.icon = none :=
  claim_C6_no_manufacturer_validation [] ciVirt (by decide) (by decide) (by decide)

/-- C7 counterexample: the claim says whitespace in the stage is replaced
by a hyphen; the adapter tags the verbatim value, so the device built from
stage `"Pre Production"` carries the tag `"Pre Production"` and not
`"Pre-Production"`. -/
theorem claim_C7_counterexample :
    ciPre.stage = "Pre Production" ∧
    (from_ci [] ciPre none).toOption.map
      (fun d => (d.tags.contains "Pre-Production", d.tags.contains "Pre Production"))
      = some (false, true) := by
  decide

/-- C7 (amended).  Tag policy: a successfully adapted device's tag set is
exactly its ConfigItem's verbatim stage and category values — no
whitespace-to-hyphen replacement takes place. -/
theorem claim_C7_tags_verbatim (tbl : List String) (ci : ConfigItem)
    (fk : Option String) (d : PObj) (h : from_ci tbl ci fk = .ok d) :
    ci.stage ∈ d.tags ∧ ci.category ∈ d.tags ∧
    ∀ t ∈ d.tags, t = ci.stage ∨ t = ci.category := by
  rw [from_ci_ok_tags tbl ci fk d h]
  unfold mkTags
  split
  · rename_i hsc
    simp [hsc]
  · simp

/-- C7 witness: the `"Pre Production"` CI adapted without a format key. -/
theorem claim_C7_tags_verbatim_witness :
    ciPre.stage ∈ (mkTags ciPre.stage ciPre.category) ∧
    ciPre.category ∈ (mkTags ciPre.stage ciPre.category) ∧
    ∀ t ∈ (mkTags ciPre.stage ciPre.category),
      t = ciPre.stage ∨ t = ciPre.category := by
  have h : from_ci [] ciPre none =
      .ok { isDevice := true, id := none, name := "srv1", host := "10.0.0.1",
            serviceUrl := "https://snow/srv1", priority := 3,
            tags := mkTags ciPre.stage ciPre.category, location := "",
            icon := none, isActive := true, ci := some ciPre } := by rfl
  exact claim_C7_tags_verbatim [] ciPre none _ h

/-! ## C10: Probe-Device exclusion in `get_tree` -/

theorem attachChain_entries (l : List PObj) :
    ∀ f m t, (attachChain f m t l).1.entries = f.entries ++ l := by
  induction l with
  | nil => intro f m t; simp [attachChain]
  | cons o rest ih =>
    intro f m t
    simp [attachChain, ih]

theorem buildTree_no_probe (env : Env) (ds : List PDev) :
    ∀ f m f', buildTree env ds f m = .ok f' →
    (∀ e ∈ f.entries, e.isDevice = true → e.name ≠ "Probe Device") →
    ∀ e ∈ f'.entries, e.isDevice = true → e.name ≠ "Probe Device" := by
  induction ds with
  | nil =>
    intro f m f' h inv
    cases h
    exact inv
  | cons dd rest ih =>
    intro f m f' h inv
    unfold buildTree at h
    split at h
    · exact ih f m f' h inv
    · rename_i hname
      split at h
      · exact absurd h (by simp)
      · rename_i r hr
        refine ih _ _ f' h ?_
        intro e he hdev
        rw [attachChain_entries] at he
        rcases List.mem_append.mp he with hold | hnew
        · exact inv e hold hdev
        · rcases List.mem_append.mp hnew with hgrp | hdd
          · rcases List.mem_reverse.mp hgrp with hgrp
            rcases List.mem_map.mp hgrp with ⟨g, _, rfl⟩
            simp [asGroupObj] at hdev
          · rcases List.mem_singleton.mp hdd with rfl
            simpa [asDeviceObj] using hname

/-- C10.  Probe-Device exclusion: a tree returned by
`PrtgController.get_tree` for a group root contains no device node named
`"Probe Device"` — such platform objects are filtered out before node
construction. -/
theorem claim_C10_probe_filtered (env : Env) (g : PObj) (f : Forest)
    (hg : g.isDevice = false) (h : get_tree env g = .ok f) :
    ∀ i, (getE f i).isDevice = true → (getE f i).name ≠ "Probe Device" := by
  unfold get_tree at h
  cases hid : g.id with
  | none => rw [hid] at h; exact absurd h (by simp)
  | some gid =>
    rw [hid] at h
    have base : ∀ e ∈ [g], e.isDevice = true → e.name ≠ "Probe Device" := by
      intro e he hdev
      rcases List.mem_singleton.mp he with rfl
      rw [hg] at hdev
      cases hdev
    have main := buildTree_no_probe env (descendantDevices env gid) _ _ f h base
    intro i hdev
    by_cases hi : i < f.entries.length
    · have hmem : getE f i ∈ f.entries := by
        unfold getE
        rw [List.getD_eq_getElem?_getD, List.getElem?_eq_getElem hi]
        exact List.getElem_mem hi
      exact main _ hmem hdev
    · have : getE f i = dfltObj := by
        unfold getE
        rw [List.getD_eq_getElem?_getD, List.getElem?_eq_none (Nat.le_of_not_lt hi)]
        rfl
      rw [this] at hdev
      cases hdev

/-- C10 witness: on the fixture platform the built tree is exactly
`Root → G2 → server1` and its device slot (index 2) is not named
`"Probe Device"`. -/
theorem claim_C10_probe_filtered_witness :
    (getE f10w 2).name ≠ "Probe Device" :=
  claim_C10_probe_filtered env10w root10w f10w (by rfl) (by rfl) 2 (by rfl)

/-! ## Trace-growth lemmas for the controller operations -/

theorem noDeleteStep_refl (a : Env) : noDeleteStep a a :=
  ⟨[], by simp, rfl⟩

theorem noDeleteStep_trans {a b c : Env} (h1 : noDeleteStep a b)
    (h2 : noDeleteStep b c) : noDeleteStep a c := by
  obtain ⟨e1, he1, hn1⟩ := h1
  obtain ⟨e2, he2, hn2⟩ := h2
  exact ⟨e1 ++ e2, by simp [he2, he1], by simp [List.filter_append, hn1, hn2]⟩

theorem deleteBudget_of_noDelete {a b : Env} (h : noDeleteStep a b) :
    deleteBudget a b := by
  obtain ⟨e, he, hn⟩ := h
  exact ⟨e, he, by simp [hn]⟩

theorem deleteBudget_comp {a b c : Env} (h1 : noDeleteStep a b)
    (h2 : deleteBudget b c) : deleteBudget a c := by
  obtain ⟨e1, he1, hn1⟩ := h1
  obtain ⟨e2, he2, hn2⟩ := h2
  refine ⟨e1 ++ e2, by simp [he2, he1], ?_⟩
  simpa [List.filter_append, hn1] using hn2

theorem add_group_noDelete {env : Env} {g p : PObj} {env' : Env} {o : PObj}
    (h : add_group env g p = .ok (env', o)) : noDeleteStep env env' := by
  unfold add_group at h
  cases hp : p.id with
  | none => rw [hp] at h; exact absurd h (by simp)
  | some pid =>
    rw [hp] at h
    cases h
    exact ⟨[.addGroup g.name pid], rfl, rfl⟩

theorem add_device_noDelete {env : Env} {d p : PObj} {env' : Env} {o : PObj}
    (h : add_device env d p = .ok (env', o)) : noDeleteStep env env' := by
  unfold add_device at h
  cases hp : p.id with
  | none => rw [hp] at h; exact absurd h (by simp)
  | some pid =>
    rw [hp] at h
    cases h
    exact ⟨[.addDevice d.name pid], rfl, rfl⟩

theorem update_prtg_id_noDelete {env : Env} {s : String} {v : Option Nat}
    {env' : Env} (h : update_prtg_id env s v = .ok env') : noDeleteStep env env' := by
  unfold update_prtg_id at h
  split at h
  · exact absurd h (by simp)
  · cases h
    exact ⟨[.updateCI s v], rfl, rfl⟩

theorem update_config_item_noDelete {env : Env} {ci : ConfigItem} {env' : Env}
    (h : update_config_item env ci = .ok env') : noDeleteStep env env' := by
  unfold update_config_item at h
  by_cases hp : ci.prtgId = none
  · rw [if_pos hp] at h
    cases h1 : update_prtg_id env ci.id none with
    | error er => rw [h1] at h; simp at h
    | ok env1 =>
      rw [h1] at h
      exact noDeleteStep_trans (update_prtg_id_noDelete h1) (update_prtg_id_noDelete h)
  · rw [if_neg hp] at h
    exact update_prtg_id_noDelete h

theorem fieldStep_noDelete (env : Env) (c : Prop) [Decidable c] (did : Nat)
    (fld : String) (f : PDev → PDev) : noDeleteStep env (fieldStep env c did fld f) := by
  unfold fieldStep
  by_cases hc : c
  · rw [if_pos hc]
    exact ⟨[.setField did fld], rfl, rfl⟩
  · rw [if_neg hc]
    exact noDeleteStep_refl env

theorem update_device_noDelete {env : Env} {d : PObj} {env' : Env}
    (h : update_device env d = .ok env') : noDeleteStep env env' := by
  unfold update_device at h
  cases hid : d.id with
  | none => rw [hid] at h; exact absurd h (by simp)
  | some did =>
    rw [hid] at h
    dsimp only at h
    cases hcur : get_device env did with
    | error er => rw [hcur] at h; simp at h
    | ok cur =>
      rw [hcur] at h
      cases h
      refine noDeleteStep_trans (noDeleteStep_trans (noDeleteStep_trans
        (noDeleteStep_trans (noDeleteStep_trans
          (fieldStep_noDelete _ _ _ _ _) (fieldStep_noDelete _ _ _ _ _))
          (fieldStep_noDelete _ _ _ _ _)) (fieldStep_noDelete _ _ _ _ _))
        (fieldStep_noDelete _ _ _ _ _)) (fieldStep_noDelete _ _ _ _ _)

theorem move_object_noDelete {env : Env} {o p : PObj} {env' : Env}
    (h : move_object env o p = .ok env') : noDeleteStep env env' := by
  unfold move_object at h
  cases ho : o.id with
  | none => rw [ho] at h; exact absurd h (by simp)
  | some oid =>
    rw [ho] at h
    cases hp : p.id with
    | none => rw [hp] at h; exact absurd h (by simp)
    | some pid =>
      rw [hp] at h
      cases h
      exact ⟨[.moveObject oid pid], rfl, rfl⟩

theorem delete_object_budget {env : Env} {o : PObj} {env' : Env}
    (h : delete_object env o = .ok env') : deleteBudget env env' := by
  unfold delete_object at h
  cases ho : o.id with
  | none => rw [ho] at h; exact absurd h (by simp)
  | some oid =>
    rw [ho] at h
    cases h
    exact ⟨[.deleteObject oid], rfl, by simp [isDelete]⟩

theorem createChain_noDelete (l : List PObj) :
    ∀ env ex, noDeleteStep env (createChain env l ex).1 := by
  induction l with
  | nil => intro env ex; exact noDeleteStep_refl env
  | cons g rest ih =>
    intro env ex
    unfold createChain
    cases hag : add_group env g ex with
    | error er => exact noDeleteStep_refl env
    | ok p => exact noDeleteStep_trans (add_group_noDelete hag) (ih p.1 p.2)

theorem createChain_stepNoDelete {l : List PObj} {ex : PObj} {env envC : Env}
    {r : Except Err PObj} (h : createChain env l ex = (envC, r)) :
    noDeleteStep env envC := by
  have := createChain_noDelete l env ex
  rw [h] at this
  exact this

theorem moveAndPrune_budget {env : Env} {dev ex cp : PObj} {env' : Env}
    {r : Except Err Unit} (h : moveAndPrune env dev ex cp = (env', r)) :
    deleteBudget env env' := by
  unfold moveAndPrune at h
  by_cases hmv : cp.id ≠ ex.id
  · rw [if_pos hmv] at h
    cases hmo : move_object env dev ex with
    | error er =>
      rw [hmo] at h
      cases h
      exact deleteBudget_of_noDelete (noDeleteStep_refl _)
    | ok envM =>
      rw [hmo] at h
      dsimp only at h
      have hstep := move_object_noDelete hmo
      cases hgs : get_groups envM (some cp) with
      | error er =>
        rw [hgs] at h
        cases hds : get_devices envM (some cp) with
        | error er2 => rw [hds] at h; cases h; exact deleteBudget_of_noDelete hstep
        | ok ds => rw [hds] at h; cases h; exact deleteBudget_of_noDelete hstep
      | ok gs =>
        rw [hgs] at h
        cases hds : get_devices envM (some cp) with
        | error er2 => rw [hds] at h; cases h; exact deleteBudget_of_noDelete hstep
        | ok ds =>
          rw [hds] at h
          dsimp only at h
          by_cases hemp : gs = [] ∧ ds = []
          · rw [if_pos hemp] at h
            cases hdel : delete_object envM cp with
            | error er2 => rw [hdel] at h; cases h; exact deleteBudget_of_noDelete hstep
            | ok envD =>
              rw [hdel] at h
              cases h
              exact deleteBudget_comp hstep (delete_object_budget hdel)
          · rw [if_neg hemp] at h
            cases h
            exact deleteBudget_of_noDelete hstep
  · rw [if_neg hmv] at h
    cases h
    exact deleteBudget_of_noDelete (noDeleteStep_refl _)

/-! ## C5: empty-group pruning depth -/

/-- C5 counterexample: moving `DeviceA` from
`Root → StageA → CategoryX` to the freshly created
`Root → StageB → CategoryY` deletes only `CategoryX` (id 3); the
equally emptied grandparent `StageA` (id 2) survives, contradicting the
claimed repeated upward pruning. -/
theorem claim_C5_counterexample :
    ((sync_device e5cex env5cex).1.pGroups.map (fun g => (g.id, g.name))).contains
        (2, "StageA") = true
    ∧ ((sync_device e5cex env5cex).1.pGroups.map (fun g => g.id)).contains 3 = false
    ∧ (sync_device e5cex env5cex).1.trace.filter isDelete = [.deleteObject 3] := by
  decide

/-- C5 (amended).  `sync_device` applies the emptiness check only to the
device's immediate former parent: across any run — successful or not —
the trace grows by at most one `delete_object` call, so an emptied
grandparent is never pruned. -/
theorem claim_C5_prune_one_level (e : Forest) (env env' : Env)
    (res : Except Err PObj) (h : sync_device e env = (env', res)) :
    deleteBudget env env' := by
  unfold sync_device at h
  cases hfind : (dfsIdx e).find? (fun i => (getE e i).isDevice) with
  | none =>
    rw [hfind] at h
    cases h
    exact deleteBudget_of_noDelete (noDeleteStep_refl _)
  | some devIdx =>
    rw [hfind] at h
    dsimp only at h
    split at h
    · cases h
      exact deleteBudget_of_noDelete (noDeleteStep_refl _)
    · split at h
      · cases h
        exact deleteBudget_of_noDelete (noDeleteStep_refl _)
      · split at h
        · cases h
          exact deleteBudget_of_noDelete (noDeleteStep_refl _)
        · split at h
          · rename_i hcc
            cases h
            exact deleteBudget_of_noDelete (createChain_stepNoDelete hcc)
          · rename_i envC existing hcc
            have hnd := createChain_stepNoDelete hcc
            split at h
            · rename_i hdevid
              cases had : add_device envC (getE e devIdx) existing with
              | error er =>
                rw [had] at h
                cases h
                exact deleteBudget_of_noDelete hnd
              | ok p =>
                rw [had] at h
                dsimp only at h
                have hnd2 := noDeleteStep_trans hnd (add_device_noDelete had)
                split at h
                · cases h
                  exact deleteBudget_of_noDelete hnd2
                · rename_i ci hci
                  cases hup : update_config_item p.1
                      { ci with prtgId := p.2.id } with
                  | error er =>
                    rw [hup] at h
                    cases h
                    exact deleteBudget_of_noDelete hnd2
                  | ok env2 =>
                    rw [hup] at h
                    cases h
                    exact deleteBudget_of_noDelete
                      (noDeleteStep_trans hnd2 (update_config_item_noDelete hup))
            · rename_i did curParent hdevid hcp
              cases hud : update_device envC (getE e devIdx) with
              | error er =>
                rw [hud] at h
                cases h
                exact deleteBudget_of_noDelete hnd
              | ok envU =>
                rw [hud] at h
                dsimp only at h
                have hnd2 := noDeleteStep_trans hnd (update_device_noDelete hud)
                cases hmp : moveAndPrune envU (getE e devIdx) existing curParent with
                | mk envM rr =>
                  rw [hmp] at h
                  have hbud := deleteBudget_comp hnd2 (moveAndPrune_budget hmp)
                  cases rr with
                  | error er =>
                    dsimp only at h
                    cases h
                    exact hbud
                  | ok u =>
                    dsimp only at h
                    cases hgd : get_device envM did with
                    | error er => rw [hgd] at h; cases h; exact hbud
                    | ok dd => rw [hgd] at h; cases h; exact hbud
            · cases h
              exact deleteBudget_of_noDelete hnd

/-- C5 witness: the fixture run moves the device, deletes `CategoryX` and
nothing else — one delete in the trace extension. -/
theorem claim_C5_prune_one_level_witness :
    deleteBudget env5cex (sync_device e5cex env5cex).1 :=
  claim_C5_prune_one_level e5cex env5cex (sync_device e5cex env5cex).1
    (sync_device e5cex env5cex).2 (by rfl)

/-! ## C8: per-device error isolation -/

/-- C8 counterexample: with two missing devices and a ServiceNow
write-back failure injected for the first, `sync_trees` raises and the
second device is never created — the per-device failure is not caught. -/
theorem claim_C8_counterexample :
    (sync_trees e8cex c8cex env8cex).2 = .error .snowErr
    ∧ (sync_trees e8cex c8cex env8cex).1.trace = [.addDevice "d1" 10] := by
  decide

/-- C8 (amended).  Per-device errors are not isolated: when the add loop
of `sync_trees` has processed a prefix of `device_to_add` and the next
device's processing raises (e.g. its inventory write-back fails), the
whole loop returns that error and none of the remaining devices is
processed. -/
theorem claim_C8_error_aborts_loop (pre : List Nat) (d : Nat) (post : List Nat)
    (f f1 : Forest) (env env1 env2 : Env) (er : Err)
    (h1 : addLoop f env pre = (env1, .ok f1))
    (h2 : processDevice f1 env1 d = (env2, .error er)) :
    addLoop f env (pre ++ d :: post) = (env2, .error er) := by
  induction pre generalizing f env with
  | nil =>
    unfold addLoop at h1
    cases h1
    simp only [List.nil_append]
    unfold addLoop
    rw [h2]
  | cons j rest ih =>
    rw [List.cons_append]
    unfold addLoop at h1 ⊢
    cases hp : processDevice f env j with
    | mk envP rr =>
      rw [hp] at h1
      cases rr with
      | error e2 => dsimp only at h1; cases h1
      | ok f2 =>
        dsimp only at h1 ⊢
        exact ih f2 envP h1

/-- C8 witness: on the two-device fixture the loop aborts at `d1` (whose
CI write-back raises) and `d2` is never reached. -/
theorem claim_C8_error_aborts_loop_witness :
    addLoop f8w env8cex ([] ++ 1 :: [2]) = (env8aft, .error .snowErr) :=
  claim_C8_error_aborts_loop [] 1 [2] f8w f8w env8cex env8cex env8aft .snowErr
    (by rfl) (by rfl)

/-! ## Arena and ordered-dict lemmas -/

theorem getE_setE (f : Forest) (i k : Nat) (o : PObj) :
    getE (setE f i o) k = if i = k ∧ i < f.entries.length then o else getE f k := by
  unfold getE setE
  by_cases hik : i = k
  · subst hik
    by_cases hlen : i < f.entries.length
    · simp [List.getD_eq_getElem?_getD, List.getElem?_set_eq_of_lt o hlen, hlen]
    · simp only [hlen, and_false, if_false]
      rw [List.set_eq_of_length_le (Nat.le_of_not_lt hlen)]
  · simp [List.getD_eq_getElem?_getD, List.getElem?_set_ne hik, hik]

theorem setE_par (f : Forest) (i : Nat) (o : PObj) : (setE f i o).par = f.par := rfl

theorem setE_len (f : Forest) (i : Nat) (o : PObj) :
    (setE f i o).entries.length = f.entries.length := by
  unfold setE
  exact List.length_set f.entries i o

theorem dictInsert_mem (m : List (String × Option Nat)) (k : String)
    (v : Option Nat) : ∀ p ∈ dictInsert m k v, p ∈ m ∨ p = (k, v) := by
  induction m with
  | nil => intro p hp; simp [dictInsert] at hp; right; exact hp
  | cons q rest ih =>
    intro p hp
    unfold dictInsert at hp
    by_cases hq : q.1 = k
    · rw [if_pos hq] at hp
      rcases List.mem_cons.mp hp with h1 | h2
      · right; rw [h1, hq]
      · left; exact List.mem_cons_of_mem q h2
    · rw [if_neg hq] at hp
      rcases List.mem_cons.mp hp with h1 | h2
      · left; rw [h1]; exact List.mem_cons_self q rest
      · rcases ih p h2 with h3 | h3
        · left; exact List.mem_cons_of_mem q h3
        · right; exact h3

theorem dictOfList_mem (l : List (String × Option Nat)) :
    ∀ p ∈ dictOfList l, p ∈ l := by
  suffices h : ∀ (acc : List (String × Option Nat)),
      ∀ p ∈ l.foldl (fun m q => dictInsert m q.1 q.2) acc, p ∈ acc ∨ p ∈ l by
    intro p hp
    rcases h [] p hp with h1 | h1
    · cases h1
    · exact h1
  induction l with
  | nil => intro acc p hp; left; exact hp
  | cons q rest ih =>
    intro acc p hp
    rcases ih (dictInsert acc q.1 q.2) p hp with h1 | h1
    · rcases dictInsert_mem acc q.1 q.2 p h1 with h2 | h2
      · left; exact h2
      · right; rw [h2]; exact List.mem_cons_self q rest
    · right; exact List.mem_cons_of_mem q h1

theorem dictPop_rest_mem (m : List (String × Option Nat)) (k : String) :
    ∀ p ∈ (dictPop m k).2, p ∈ m := by
  induction m with
  | nil => intro p hp; simp [dictPop] at hp
  | cons q rest ih =>
    intro p hp
    unfold dictPop at hp
    by_cases hq : q.1 = k
    · rw [if_pos hq] at hp
      exact List.mem_cons_of_mem q hp
    · rw [if_neg hq] at hp
      rcases List.mem_cons.mp hp with h1 | h1
      · rw [h1]; exact List.mem_cons_self q rest
      · exact List.mem_cons_of_mem q (ih p h1)

theorem dictPop_val_mem (m : List (String × Option Nat)) (k : String)
    (h : ∃ v, (k, v) ∈ m) : (k, (dictPop m k).1) ∈ m := by
  induction m with
  | nil => obtain ⟨v, hv⟩ := h; cases hv
  | cons q rest ih =>
    unfold dictPop
    by_cases hq : q.1 = k
    · rw [if_pos hq]
      have : q = (k, q.2) := by
        rw [← hq]
      rw [this]
      exact List.mem_cons_self _ rest
    · rw [if_neg hq]
      obtain ⟨v, hv⟩ := h
      rcases List.mem_cons.mp hv with h1 | h1
      · exact absurd (congrArg Prod.fst h1.symm) hq
      · exact List.mem_cons_of_mem q (ih ⟨v, h1⟩)

/-! ## `stampLoop` lemmas -/

theorem stampLoop_par (l : List Nat) :
    ∀ f m, (stampLoop l f m).par = f.par := by
  induction l with
  | nil => intro f m; rfl
  | cons i rest ih =>
    intro f m
    unfold stampLoop
    cases m.find? (fun p => pyStartsWith p.1 ((getE f i).name)) with
    | none => exact ih f m
    | some hit => exact ih _ _

theorem stampLoop_len (l : List Nat) :
    ∀ f m, (stampLoop l f m).entries.length = f.entries.length := by
  induction l with
  | nil => intro f m; rfl
  | cons i rest ih =>
    intro f m
    unfold stampLoop
    cases m.find? (fun p => pyStartsWith p.1 ((getE f i).name)) with
    | none => exact ih f m
    | some hit => rw [ih _ _, setE_len]

theorem stampLoop_keep (l : List Nat) :
    ∀ f m k, (getE (stampLoop l f m) k).name = (getE f k).name
      ∧ (getE (stampLoop l f m) k).isDevice = (getE f k).isDevice
      ∧ (getE (stampLoop l f m) k).ci = (getE f k).ci := by
  induction l with
  | nil => intro f m k; exact ⟨rfl, rfl, rfl⟩
  | cons i rest ih =>
    intro f m k
    unfold stampLoop
    cases m.find? (fun p => pyStartsWith p.1 ((getE f i).name)) with
    | none => exact ih f m k
    | some hit =>
      obtain ⟨hn, hd, hc⟩ := ih (setE f i { getE f i with id := (dictPop m hit.1).1 })
        (dictPop m hit.1).2 k
      rw [hn, hd, hc, getE_setE]
      by_cases hik : i = k ∧ i < f.entries.length
      · rw [if_pos hik]
        rw [hik.1]
        exact ⟨rfl, rfl, rfl⟩
      · rw [if_neg hik]
        exact ⟨rfl, rfl, rfl⟩

theorem stampLoop_untouched (l : List Nat) :
    ∀ f m k, k ∉ l → getE (stampLoop l f m) k = getE f k := by
  induction l with
  | nil => intro f m k _; rfl
  | cons i rest ih =>
    intro f m k hk
    have hki : k ≠ i := fun h => hk (h ▸ List.mem_cons_self i rest)
    have hkr : k ∉ rest := fun h => hk (List.mem_cons_of_mem i h)
    unfold stampLoop
    cases m.find? (fun p => pyStartsWith p.1 ((getE f i).name)) with
    | none => exact ih f m k hkr
    | some hit =>
      rw [ih _ _ k hkr, getE_setE, if_neg]
      intro hcon
      exact hki hcon.1.symm

theorem stampLoop_stamped (l : List Nat) :
    ∀ f m k, k ∈ l →
      (getE (stampLoop l f m) k).id = (getE f k).id ∨
      ∃ p ∈ m, pyStartsWith p.1 ((getE f k).name) = true
        ∧ (getE (stampLoop l f m) k).id = p.2 := by
  induction l with
  | nil => intro f m k hk; cases hk
  | cons i rest ih =>
    intro f m k hk
    unfold stampLoop
    cases hfind : m.find? (fun p => pyStartsWith p.1 ((getE f i).name)) with
    | none =>
      rcases List.mem_cons.mp hk with rfl | hkr
      · by_cases hkr2 : k ∈ rest
        · exact ih f m k hkr2
        · left; rw [stampLoop_untouched rest f m k hkr2]
      · exact ih f m k hkr
    | some hit =>
      have hhitmem : hit ∈ m := List.mem_of_find?_eq_some hfind
      have hhitpred := List.find?_some hfind
      have hvalmem : (hit.1, (dictPop m hit.1).1) ∈ m :=
        dictPop_val_mem m hit.1 ⟨hit.2, by rw [← @Prod.mk.eta _ _ hit] at hhitmem; exact hhitmem⟩
      set f1 := setE f i { getE f i with id := (dictPop m hit.1).1 } with hf1
      set m1 := (dictPop m hit.1).2 with hm1
      have hstep : ∀ x, (getE f1 x).id = (getE f x).id ∨
          (x = i ∧ (getE f1 x).id = (dictPop m hit.1).1) := by
        intro x
        rw [hf1, getE_setE]
        by_cases hx : i = x ∧ i < f.entries.length
        · right; exact ⟨hx.1.symm, by rw [if_pos hx]⟩
        · left; rw [if_neg hx]
      have hname1 : ∀ x, (getE f1 x).name = (getE f x).name := by
        intro x
        rw [hf1, getE_setE]
        by_cases hx : i = x ∧ i < f.entries.length
        · rw [if_pos hx, hx.1]
        · rw [if_neg hx]
      by_cases hkr : k ∈ rest
      · rcases ih f1 m1 k hkr with h1 | h1
        · rcases hstep k with h2 | h2
          · left; rw [h1, h2]
          · right
            exact ⟨(hit.1, (dictPop m hit.1).1), hvalmem,
              by rw [h2.1]; exact hhitpred, by rw [h1, h2.2]⟩
        · obtain ⟨p, hpm, hpw, hpe⟩ := h1
          right
          exact ⟨p, dictPop_rest_mem m hit.1 p hpm, by rw [hname1 k] at hpw; exact hpw, hpe⟩
      · rcases List.mem_cons.mp hk with rfl | h1
        · rw [stampLoop_untouched rest f1 m1 k hkr]
          rcases hstep k with h2 | h2
          · left; exact h2
          · right
            exact ⟨(hit.1, (dictPop m hit.1).1), hvalmem,
              by rw [h2.1]; exact hhitpred, h2.2⟩
        · exact absurd h1 hkr

/-! ## C4: group matching is by name only, not parent-aware -/

/-- C4 counterexample: with expected `R → S1 → Server` and current
`R → S2 → Server`, `_sync_groups` stamps the expected `Server` (child of
the unmatched `S1`) with id 99, the id of the current `Server` group that
sits under the different stage `S2` — a same-label group elsewhere in the
tree is selected. -/
theorem claim_C4_counterexample :
    sync_groups e4cex c4cex = .ok f4w
    ∧ (getE f4w 2).id = some 99
    ∧ (getE c4cex 2).id = some 99
    ∧ c4cex.par.getD 2 none = some 1
    ∧ (getE c4cex 1).name = "S2"
    ∧ e4cex.par.getD 2 none = some 1
    ∧ (getE e4cex 1).name = "S1"
    ∧ (getE f4w 1).id = none := by
  decide

/-- C4 (amended).  Group-id resolution matches by name only: every
non-root expected group either keeps its original id or is stamped with
the id of some current non-root group whose name starts with the expected
group's name — with no constraint relating the matched group's parent to
the expected group's parent. -/
theorem claim_C4_name_only_matching (e c f' : Forest)
    (h : sync_groups e c = .ok f')
    (hroot : (groupIdx e).headD 0 ∉ (groupIdx e).drop 1) :
    ∀ i ∈ (groupIdx e).drop 1,
      (getE f' i).id = (getE e i).id ∨
      ∃ j ∈ (groupIdx c).drop 1,
        pyStartsWith (getE c j).name ((getE e i).name) = true ∧
        (getE f' i).id = (getE c j).id := by
  unfold sync_groups at h
  cases hge : groupIdx e with
  | nil => rw [hge] at h; exact absurd h (by simp)
  | cons r rest =>
    cases hgc : groupIdx c with
    | nil => rw [hge, hgc] at h; exact absurd h (by simp)
    | cons cr crest =>
      rw [hge, hgc] at h
      dsimp only at h
      split at h
      · exact absurd h (by simp)
      · cases h
        rw [hge] at hroot
        simp only [List.headD_cons, List.drop_one, List.tail_cons] at hroot
        intro i hi
        simp only [List.drop_one, List.tail_cons] at hi
        have hir : i ≠ r := fun hcon => hroot (by rwa [hcon] at hi)
        have hbase : getE (setE e r { getE e r with id := (getE c cr).id }) i = getE e i := by
          rw [getE_setE, if_neg]
          intro hcon
          exact hir hcon.1.symm
        rcases stampLoop_stamped rest
            (setE e r { getE e r with id := (getE c cr).id })
            (dictOfList (crest.map (fun k => ((getE c k).name, (getE c k).id)))) i hi with
          h1 | h1
        · left
          rw [h1, hbase]
        · obtain ⟨p, hpm, hpw, hpe⟩ := h1
          right
          have hpl := dictOfList_mem _ p hpm
          obtain ⟨j, hj, hpj⟩ := List.mem_map.mp hpl
          refine ⟨j, by simpa using hj, ?_, ?_⟩
          · rw [hbase] at hpw
            rw [← hpj] at hpw
            exact hpw
          · rw [hpe, ← hpj]

/-- C4 witness: on the two-stage fixture the expected `Server` node
(index 2) is stamped from the current tree by name. -/
theorem claim_C4_name_only_matching_witness :
    (getE f4w 2).id = (getE e4cex 2).id ∨
    ∃ j ∈ (groupIdx c4cex).drop 1,
      pyStartsWith (getE c4cex j).name ((getE e4cex 2).name) = true ∧
      (getE f4w 2).id = (getE c4cex j).id :=
  claim_C4_name_only_matching e4cex c4cex f4w (by rfl) (by decide) 2 (by decide)

/-! ## C3: group-creation ordering lemmas -/

theorem stamp_keep (f : Forest) (b : Nat) (v : Option Nat) (x : Nat) :
    (getE (setE f b { getE f b with id := v }) x).name = (getE f x).name
    ∧ (getE (setE f b { getE f b with id := v }) x).isDevice = (getE f x).isDevice
    ∧ (getE (setE f b { getE f b with id := v }) x).ci = (getE f x).ci := by
  rw [getE_setE]
  by_cases hx : b = x ∧ b < f.entries.length
  · rw [if_pos hx, hx.1]
    exact ⟨rfl, rfl, rfl⟩
  · rw [if_neg hx]
    exact ⟨rfl, rfl, rfl⟩

theorem createGroups_spec (L : List Nat) :
    ∀ (f : Forest) (env : Env) (a₀ r₀ : Nat),
    linkedFrom f.par a₀ L →
    (getE f a₀).id = some r₀ →
    (∀ a ∈ L, a < f.entries.length) →
    ∃ env₁ f₁,
      createGroups f env L = (env₁, .ok f₁) ∧
      env₁.trace = env.trace
        ++ creationCalls (L.map (fun a => (getE f a).name)) r₀ env.nextId ∧
      env₁.nextId = env.nextId + L.length ∧
      f₁.par = f.par ∧
      f₁.entries.length = f.entries.length ∧
      (∀ x, (getE f₁ x).name = (getE f x).name) ∧
      (∀ x, (getE f₁ x).isDevice = (getE f x).isDevice) ∧
      (∀ x, (getE f₁ x).ci = (getE f x).ci) ∧
      (L = [] → f₁ = f ∧ env₁ = env) ∧
      (L ≠ [] →
        (getE f₁ (L.getLastD 0)).id = some (env.nextId + L.length - 1)) := by
  induction L with
  | nil =>
    intro f env a₀ r₀ _ _ _
    exact ⟨env, f, rfl, by simp [creationCalls], by simp, rfl, rfl,
      fun _ => rfl, fun _ => rfl, fun _ => rfl, fun _ => ⟨rfl, rfl⟩,
      fun hcon => absurd rfl hcon⟩
  | cons b rest ih =>
    intro f env a₀ r₀ hlink hid hb
    obtain ⟨hpb, hlink'⟩ := hlink
    have hblt : b < f.entries.length := hb b (List.mem_cons_self b rest)
    have hag : add_group env (getE f b) (getE f a₀) =
        .ok ({ env with
                nextId := env.nextId + 1,
                pGroups := env.pGroups ++
                  [{ id := env.nextId, parentId := some r₀, name := (getE f b).name,
                     priority := (getE f b).priority, tags := (getE f b).tags,
                     location := (getE f b).location, isActive := (getE f b).isActive }],
                trace := env.trace ++ [.addGroup (getE f b).name r₀] },
              asGroupObj
                { id := env.nextId, parentId := some r₀, name := (getE f b).name,
                  priority := (getE f b).priority, tags := (getE f b).tags,
                  location := (getE f b).location, isActive := (getE f b).isActive }) := by
      unfold add_group
      rw [hid]
    set env1 : Env :=
      { env with
        nextId := env.nextId + 1,
        pGroups := env.pGroups ++
          [{ id := env.nextId, parentId := some r₀, name := (getE f b).name,
             priority := (getE f b).priority, tags := (getE f b).tags,
             location := (getE f b).location, isActive := (getE f b).isActive }],
        trace := env.trace ++ [.addGroup (getE f b).name r₀] } with henv1
    set f1 : Forest := setE f b { getE f b with id := some env.nextId } with hf1
    have hidb : (getE f1 b).id = some env.nextId := by
      rw [hf1, getE_setE, if_pos ⟨rfl, hblt⟩]
    have hlink1 : linkedFrom f1.par b rest := by
      rw [hf1, setE_par]
      exact hlink'
    have hb1 : ∀ a ∈ rest, a < f1.entries.length := by
      intro a ha
      rw [hf1, setE_len]
      exact hb a (List.mem_cons_of_mem b ha)
    obtain ⟨env₂, f₂, hcg, htr, hnx, hpar, hlen, hnm, hdev, hci, hnil, hlast⟩ :=
      ih f1 env1 b env.nextId hlink1 hidb hb1
    refine ⟨env₂, f₂, ?_, ?_, ?_, ?_, ?_, ?_, ?_, ?_, ?_, ?_⟩
    · unfold createGroups
      rw [hpb]
      dsimp only
      rw [hag]
      exact hcg
    · rw [htr]
      have hmap : rest.map (fun a => (getE f1 a).name)
          = rest.map (fun a => (getE f a).name) := by
        apply List.map_congr_left
        intro a _
        rw [hf1]
        exact (stamp_keep f b (some env.nextId) a).1
      rw [hmap]
      show (env.trace ++ [Call.addGroup (getE f b).name r₀])
          ++ creationCalls (rest.map (fun a => (getE f a).name)) env.nextId (env.nextId + 1)
        = env.trace ++ creationCalls (((b :: rest).map (fun a => (getE f a).name))) r₀ env.nextId
      rw [List.map_cons]
      rw [List.append_assoc]
      rfl
    · rw [hnx]
      show env.nextId + 1 + rest.length = env.nextId + (rest.length + 1)
      omega
    · rw [hpar, hf1, setE_par]
    · rw [hlen, hf1, setE_len]
    · intro x
      rw [hnm x, hf1]
      exact (stamp_keep f b (some env.nextId) x).1
    · intro x
      rw [hdev x, hf1]
      exact (stamp_keep f b (some env.nextId) x).2.1
    · intro x
      rw [hci x, hf1]
      exact (stamp_keep f b (some env.nextId) x).2.2
    · intro hcon
      cases hcon
    · intro _
      cases hrest : rest with
      | nil =>
        have hf2 : f₂ = f1 := (hnil hrest).1
        rw [hf2]
        simpa using hidb
      | cons c cs =>
        have hne : rest ≠ [] := by rw [hrest]; exact List.cons_ne_nil c cs
        have hlast2 := hlast hne
        rw [hrest] at hlast2
        have h1 : (b :: c :: cs).getLastD 0 = (c :: cs).getLastD 0 := by
          rw [List.getLastD_cons, List.getLastD_eq_getLast?,
            List.getLastD_eq_getLast?]
          cases hq : (c :: cs).getLast? with
          | none => simp at hq
          | some q => rfl
        rw [h1, hlast2]
        have h2 : env1.nextId = env.nextId + 1 := rfl
        rw [h2]
        congr 1
        simp only [List.length_cons]
        omega

theorem add_device_ok_parts (env : Env) (d : PObj) {p : PObj} {pid : Nat}
    (hpid : p.id = some pid) :
    ∃ env₂ newDev,
      add_device env d p = .ok (env₂, newDev) ∧
      env₂.trace = env.trace ++ [.addDevice d.name pid] ∧
      env₂.nextId = env.nextId + 1 ∧
      env₂.snowFail = env.snowFail ∧
      newDev.id = some env.nextId := by
  refine ⟨{ env with
      nextId := env.nextId + 1,
      pDevices := env.pDevices ++
        [⟨env.nextId, pid, d.name, d.host, d.serviceUrl, d.priority, d.tags,
          d.icon, d.isActive⟩],
      trace := env.trace ++ [.addDevice d.name pid] },
    asDeviceObj ⟨env.nextId, pid, d.name, d.host, d.serviceUrl, d.priority,
      d.tags, d.icon, d.isActive⟩, ?_, rfl, rfl, rfl, rfl⟩
  unfold add_device
  rw [hpid]

theorem parentChain_chain (par : List (Option Nat)) :
    ∀ fuel j, List.Chain' (fun x y => par.getD x none = some y)
      (j :: parentChain par fuel j) := by
  intro fuel
  induction fuel with
  | zero => intro j; simp [parentChain]
  | succ n ih =>
    intro j
    unfold parentChain
    cases hj : par.getD j none with
    | none => simp
    | some p =>
      rw [List.chain'_cons]
      exact ⟨hj, ih p⟩

theorem linkedFrom_of_chain (par : List (Option Nat)) (xs : List Nat) :
    ∀ (a : Nat),
      List.Chain' (fun x y => par.getD x none = some y) xs →
      xs ≠ [] →
      par.getD (xs.getLastD 0) none = some a →
      linkedFrom par a xs.reverse := by
  induction xs using List.reverseRecOn with
  | nil => intro a _ hne _; exact absurd rfl hne
  | append_singleton ys y ih =>
    intro a hch _ hlast
    rw [List.reverse_append, List.reverse_singleton, List.singleton_append]
    show linkedFrom par a (y :: ys.reverse)
    rw [List.getLastD_concat] at hlast
    refine ⟨hlast, ?_⟩
    cases hys : ys with
    | nil => exact trivial
    | cons z zs =>
      obtain ⟨hch1, _, hlink⟩ := List.chain'_append.mp hch
      rw [← hys]
      apply ih y hch1 (by rw [hys]; exact List.cons_ne_nil z zs)
      have hgl : ys.getLast? = some (ys.getLastD 0) := by
        rw [List.getLastD_eq_getLast?, hys]
        cases hq : (z :: zs).getLast? with
        | none => simp at hq
        | some q => rfl
      exact hlink (ys.getLastD 0) hgl y rfl

/-- C3 counterexample: expected `R → A → B → dev1` against a current tree
holding a group `B` (id 77) but no `A`.  After `_sync_groups`, ancestor
`A` has no resolved id (N = 1 unresolved ancestor), yet the run issues
zero `add_group` calls before the `add_device` call — the device is
attached to the name-matched `B` directly. -/
theorem claim_C3_counterexample :
    ((sync_trees e3cex c3cex { nextId := 100 }).1.trace.filter isAddGroup = [])
    ∧ (sync_trees e3cex c3cex { nextId := 100 }).1.trace
        = [.addDevice "dev1" 77, .updateCI "CI-dev1" (some 100)]
    ∧ (sync_groups e3cex c3cex).toOption.map (fun f0 => (getE f0 1).id) = some none
    ∧ (getE e3cex 1).isDevice = false := by
  decide

/-- C3 (amended).  Creation ordering for one missing device whose parent
node is unresolved: `processDevice` creates exactly the contiguous
unresolved suffix of the ancestor path (`groupsToAddFor` — the parent plus
the nearest id-less ancestors, ending at the first resolved one), in
root-to-leaf order.  The first `add_group` call carries the id of the
already-resolved ancestor `a₀`; by `creationCalls`, every later call
carries the id freshly assigned to its predecessor; and all of them occur
strictly before the single `add_device` call, which carries the id of the
last-created group.  Ancestors above the resolved ancestor are not
created, even if unresolved. -/
theorem claim_C3_creation_suffix (f : Forest) (env : Env) (j pj : Nat)
    (env' : Env) (f' : Forest)
    (hp : f.par.getD j none = some pj)
    (hun : (getE f pj).id = none)
    (hb : ∀ a ∈ groupsToAddFor f j pj, a < f.entries.length)
    (hok : processDevice f env j = (env', .ok f')) :
    ∃ a₀ r₀ ciid,
      linkedFrom f.par a₀ ((groupsToAddFor f j pj).reverse) ∧
      (getE f a₀).id = some r₀ ∧
      env'.trace = env.trace
        ++ creationCalls
            (((groupsToAddFor f j pj).reverse).map (fun a => (getE f a).name))
            r₀ env.nextId
        ++ [.addDevice (getE f j).name
              (env.nextId + (groupsToAddFor f j pj).length - 1),
            .updateCI ciid (some (env.nextId + (groupsToAddFor f j pj).length))] := by
  unfold processDevice at hok
  rw [hp] at hok
  dsimp only at hok
  have hde : add_device env (getE f j) (getE f pj) = .error .valueErr := by
    unfold add_device
    rw [hun]
  rw [hde] at hok
  dsimp only at hok
  set tw := ((parentChain f.par f.par.length j).drop 1).dropLast.takeWhile
    (fun a => (getE f a).id = none) with htw
  have hgta : groupsToAddFor f j pj = pj :: tw := rfl
  set L := (groupsToAddFor f j pj).reverse with hLdef
  have hLrev : L = tw.reverse ++ [pj] := by
    rw [hLdef, hgta, List.reverse_cons]
  have hLlen : L.length = (groupsToAddFor f j pj).length := by
    rw [hLdef, List.length_reverse]
  -- the parent chain is non-trivial since j has a parent
  have hparne : f.par ≠ [] := by
    intro hcon
    rw [hcon] at hp
    cases hp
  obtain ⟨o1, pr, hpr⟩ := List.exists_cons_of_ne_nil hparne
  have hn : f.par.length = pr.length + 1 := by rw [hpr]; rfl
  have hpc : parentChain f.par f.par.length j
      = pj :: parentChain f.par pr.length pj := by
    rw [hn]
    simp only [parentChain]
    rw [hp]
  -- the names chain is linked
  have hchainpc : List.Chain' (fun x y => f.par.getD x none = some y)
      (parentChain f.par f.par.length j) :=
    (parentChain_chain f.par f.par.length j).tail
  have hprefix : (pj :: tw) <+: parentChain f.par f.par.length j := by
    rw [hpc]
    refine List.cons_prefix_cons.mpr ⟨rfl, ?_⟩
    rw [htw, hpc]
    simp only [List.drop_succ_cons, List.drop_zero]
    exact (List.takeWhile_prefix _).trans (List.dropLast_prefix _)
  have hchain : List.Chain' (fun x y => f.par.getD x none = some y) (pj :: tw) :=
    hchainpc.prefix hprefix
  -- head of the creation order = last of the collected list
  obtain ⟨t', L', hL⟩ := List.exists_cons_of_ne_nil
    (show L ≠ [] by rw [hLrev]; simp)
  have ht' : t' = (pj :: tw).getLastD 0 := by
    have h1 : L.headD 0 = t' := by rw [hL]; rfl
    have h2 : L.headD 0 = (pj :: tw).getLastD 0 := by
      rw [hLdef, hgta, List.headD_eq_head?, List.head?_reverse,
        List.getLastD_eq_getLast?]
    rw [← h1, h2]
  cases hpar0 : f.par.getD t' none with
  | none =>
    have hcgerr : createGroups f env L = (env, .error .attrErr) := by
      rw [hL]
      unfold createGroups
      rw [hpar0]
    rw [hcgerr] at hok
    simp at hok
  | some a₀ =>
    cases hida : (getE f a₀).id with
    | none =>
      have hagerr : add_group env (getE f t') (getE f a₀) = .error .valueErr := by
        unfold add_group
        rw [hida]
      have hcgerr : createGroups f env L = (env, .error .valueErr) := by
        rw [hL]
        unfold createGroups
        rw [hpar0]
        dsimp only
        rw [hagerr]
      rw [hcgerr] at hok
      simp at hok
    | some r₀ =>
      have hlink : linkedFrom f.par a₀ L := by
        rw [hLdef, hgta]
        apply linkedFrom_of_chain f.par (pj :: tw) a₀ hchain (by simp)
        rw [← ht']
        exact hpar0
      have hbnd : ∀ a ∈ L, a < f.entries.length := by
        intro a ha
        exact hb a (by rw [hLdef] at ha; exact List.mem_reverse.mp ha)
      obtain ⟨env₁, f₁, hcg, htr, hnx, hparf, hlenf, hnm, hdev, hcip, _, hlast⟩ :=
        createGroups_spec L f env a₀ r₀ hlink hida hbnd
      rw [hcg] at hok
      dsimp only at hok
      have hpjL : L.getLastD 0 = pj := by
        rw [hLrev]
        exact List.getLastD_concat 0 pj tw.reverse
      have hLne : L ≠ [] := by rw [hLrev]; simp
      have hpid : (getE f₁ pj).id = some (env.nextId + L.length - 1) := by
        have := hlast hLne
        rwa [hpjL] at this
      obtain ⟨env₂, newDev, had2, henv2tr, henv2nx, henv2sf, hnewid⟩ :=
        add_device_ok_parts env₁ (getE f₁ j) hpid
      rw [had2] at hok
      unfold finishDevice at hok
      dsimp only at hok
      cases hcj : (getE f₁ j).ci with
      | none =>
        rw [hcj] at hok
        simp at hok
      | some ci =>
        rw [hcj] at hok
        dsimp only at hok
        have hnn : ¬ newDev.id = none := by
          rw [hnewid]
          simp
        by_cases hmem : ci.id ∈ env₂.snowFail
        · have hupe : update_config_item env₂ { ci with prtgId := newDev.id }
              = .error .snowErr := by
            unfold update_config_item
            dsimp only
            rw [if_neg hnn]
            dsimp only
            unfold update_prtg_id
            rw [if_pos hmem]
          rw [hupe] at hok
          simp at hok
        · have hupo : update_config_item env₂ { ci with prtgId := newDev.id }
              = .ok { env₂ with
                  snowStore := env₂.snowStore.map
                    (fun r => if r.id = ci.id then { r with prtgId := newDev.id } else r),
                  trace := env₂.trace ++ [.updateCI ci.id newDev.id] } := by
            unfold update_config_item
            dsimp only
            rw [if_neg hnn]
            dsimp only
            unfold update_prtg_id
            rw [if_neg hmem]
          rw [hupo] at hok
          dsimp only at hok
          cases hok
          refine ⟨a₀, r₀, ci.id, hlink, hida, ?_⟩
          show env₂.trace ++ [Call.updateCI ci.id newDev.id] = _
          rw [henv2tr, htr, hnm j, hnewid, hnx, ← hLlen]
          simp [List.append_assoc]

/-- C3 witness: on the fixture tree `Acme Corp → StageA → dev1` with the
root resolved (id 10) and `StageA` unresolved, processing the device from
`nextId = 100` creates `StageA` (one `add_group` under id 10), then the
device, then writes the id back — matching the amended creation-suffix
statement at `a₀ = 0`, `r₀ = 10`. -/
theorem claim_C3_creation_suffix_witness :
    f3ww.par.getD 2 none = some 1 ∧
    (getE f3ww 1).id = none ∧
    (∀ a ∈ groupsToAddFor f3ww 2 1, a < f3ww.entries.length) ∧
    processDevice f3ww env0w 2 = (env3aft, .ok f3aft) ∧
    (∃ a₀ r₀ ciid,
      linkedFrom f3ww.par a₀ ((groupsToAddFor f3ww 2 1).reverse) ∧
      (getE f3ww a₀).id = some r₀ ∧
      env3aft.trace = env0w.trace
        ++ creationCalls
            (((groupsToAddFor f3ww 2 1).reverse).map (fun a => (getE f3ww a).name))
            r₀ env0w.nextId
        ++ [.addDevice (getE f3ww 2).name
              (env0w.nextId + (groupsToAddFor f3ww 2 1).length - 1),
            .updateCI ciid (some (env0w.nextId + (groupsToAddFor f3ww 2 1).length))]) :=
  ⟨by decide, by decide, by decide, by rfl,
   claim_C3_creation_suffix f3ww env0w 2 1 env3aft f3aft (by decide) (by decide)
     (by decide) (by rfl)⟩

/-! ## C1: idempotence of `sync_trees` -/

theorem getD_some_lt (par : List (Option Nat)) (x a : Nat)
    (h : par.getD x none = some a) : x < par.length := by
  by_contra hx
  rw [List.getD_eq_default _ _ (le_of_not_lt hx)] at h
  exact Option.noConfusion h

theorem getE_isDevice_lt (f : Forest) (j : Nat)
    (h : (getE f j).isDevice = true) : j < f.entries.length := by
  by_contra hx
  unfold getE at h
  rw [List.getD_eq_default _ _ (le_of_not_lt hx)] at h
  simp [dfltObj] at h

theorem parentsAreGroups_of (f : Forest) (x a : Nat)
    (hpar : parentsAreGroups f = true) (h : f.par.getD x none = some a) :
    (getE f a).isDevice = false := by
  have hx := getD_some_lt f.par x a h
  unfold parentsAreGroups at hpar
  rw [List.all_eq_true] at hpar
  have hh := hpar x (List.mem_range.mpr hx)
  rw [h] at hh
  dsimp only at hh
  simpa using hh

theorem parentChain_mem_parent (par : List (Option Nat)) :
    ∀ fuel j a, a ∈ parentChain par fuel j →
      ∃ x, par.getD x none = some a := by
  intro fuel
  induction fuel with
  | zero =>
    intro j a ha
    rw [show parentChain par 0 j = [] from rfl] at ha
    cases ha
  | succ fuel ih =>
    intro j a ha
    unfold parentChain at ha
    cases hpj : par.getD j none with
    | none =>
      rw [hpj] at ha
      cases ha
    | some p =>
      rw [hpj] at ha
      dsimp only at ha
      rcases List.mem_cons.mp ha with rfl | hrest
      · exact ⟨j, hpj⟩
      · exact ih p a hrest

theorem groupsToAddFor_groups (f : Forest) (j pj : Nat)
    (hpar : parentsAreGroups f = true) (hp : f.par.getD j none = some pj) :
    ∀ a ∈ groupsToAddFor f j pj, (getE f a).isDevice = false := by
  intro a ha
  unfold groupsToAddFor at ha
  rcases List.mem_cons.mp ha with rfl | htw
  · exact parentsAreGroups_of f j a hpar hp
  · have h1 : a ∈ ((parentChain f.par f.par.length j).drop 1).dropLast :=
      (List.takeWhile_prefix _).subset htw
    have h2 : a ∈ (parentChain f.par f.par.length j).drop 1 :=
      (List.dropLast_prefix _).subset h1
    have h3 : a ∈ parentChain f.par f.par.length j := List.mem_of_mem_drop h2
    obtain ⟨x, hx⟩ := parentChain_mem_parent f.par f.par.length j a h3
    exact parentsAreGroups_of f x a hpar hx

theorem update_prtg_id_pDevices (env : Env) (s : String) (v : Option Nat)
    (env' : Env) (h : update_prtg_id env s v = .ok env') :
    env'.pDevices = env.pDevices := by
  unfold update_prtg_id at h
  by_cases hmem : s ∈ env.snowFail
  · rw [if_pos hmem] at h
    exact Except.noConfusion h
  · rw [if_neg hmem] at h
    simp only [Except.ok.injEq] at h
    rw [← h]

theorem update_config_item_pDevices (env : Env) (ci : ConfigItem) (env' : Env)
    (h : update_config_item env ci = .ok env') :
    env'.pDevices = env.pDevices := by
  unfold update_config_item at h
  cases hfirst : (if ci.prtgId = none then update_prtg_id env ci.id none
      else .ok env) with
  | error er =>
    rw [hfirst] at h
    exact Except.noConfusion h
  | ok env1 =>
    rw [hfirst] at h
    dsimp only at h
    have h2 := update_prtg_id_pDevices env1 ci.id ci.prtgId env' h
    have h1 : env1.pDevices = env.pDevices := by
      by_cases hn : ci.prtgId = none
      · rw [if_pos hn] at hfirst
        exact update_prtg_id_pDevices env ci.id none env1 hfirst
      · rw [if_neg hn] at hfirst
        simp only [Except.ok.injEq] at hfirst
        rw [hfirst]
    rw [h2, h1]

theorem add_group_pDevices (env : Env) (g p : PObj) (env₁ : Env) (o : PObj)
    (h : add_group env g p = .ok (env₁, o)) :
    env₁.pDevices = env.pDevices := by
  unfold add_group at h
  cases hpid : p.id with
  | none =>
    rw [hpid] at h
    exact Except.noConfusion h
  | some pid =>
    rw [hpid] at h
    dsimp only at h
    simp only [Except.ok.injEq, Prod.mk.injEq] at h
    rw [← h.1]

theorem add_device_ok_inv (env : Env) (d p : PObj) (env₁ : Env) (o : PObj)
    (h : add_device env d p = .ok (env₁, o)) :
    envDevIds env₁ = envDevIds env ++ [env.nextId] ∧ o.id = some env.nextId := by
  unfold add_device at h
  cases hpid : p.id with
  | none =>
    rw [hpid] at h
    exact Except.noConfusion h
  | some pid =>
    rw [hpid] at h
    dsimp only at h
    simp only [Except.ok.injEq, Prod.mk.injEq] at h
    constructor
    · rw [← h.1]
      unfold envDevIds
      dsimp only
      rw [List.map_append]
      rfl
    · rw [← h.2]
      rfl

theorem createGroups_frame (L : List Nat) : ∀ f env env' f₁,
    (∀ a ∈ L, (getE f a).isDevice = false) →
    createGroups f env L = (env', .ok f₁) →
    f₁.par = f.par ∧ f₁.entries.length = f.entries.length ∧
    (∀ k, (getE f₁ k).isDevice = (getE f k).isDevice) ∧
    (∀ k, (getE f k).isDevice = true → getE f₁ k = getE f k) ∧
    env'.pDevices = env.pDevices := by
  induction L with
  | nil =>
    intro f env env' f₁ _ h
    unfold createGroups at h
    simp only [Prod.mk.injEq, Except.ok.injEq] at h
    obtain ⟨h1, h2⟩ := h
    subst h1
    subst h2
    exact ⟨rfl, rfl, fun k => rfl, fun k _ => rfl, rfl⟩
  | cons a rest ih =>
    intro f env env' f₁ hg h
    unfold createGroups at h
    cases hap : f.par.getD a none with
    | none =>
      rw [hap] at h
      simp at h
    | some ap =>
      rw [hap] at h
      dsimp only at h
      cases hag : add_group env (getE f a) (getE f ap) with
      | error er =>
        rw [hag] at h
        simp at h
      | ok p =>
        obtain ⟨env₁, newG⟩ := p
        rw [hag] at h
        dsimp only at h
        have hgs : ∀ b ∈ rest,
            (getE (setE f a { getE f a with id := newG.id }) b).isDevice = false := by
          intro b hb
          rw [getE_setE]
          by_cases hc : a = b ∧ a < f.entries.length
          · rw [if_pos hc]
            exact hg a (List.mem_cons_self a rest)
          · rw [if_neg hc]
            exact hg b (List.mem_cons_of_mem a hb)
        obtain ⟨h1, h2, h3, h4, h5⟩ := ih _ _ _ _ hgs h
        have hpd : env₁.pDevices = env.pDevices :=
          add_group_pDevices env (getE f a) (getE f ap) env₁ newG hag
        refine ⟨by rw [h1, setE_par], by rw [h2, setE_len], ?_, ?_,
          by rw [h5, hpd]⟩
        · intro k
          rw [h3 k, getE_setE]
          by_cases hc : a = k ∧ a < f.entries.length
          · rw [if_pos hc]
            obtain ⟨rfl, _⟩ := hc
            rfl
          · rw [if_neg hc]
        · intro k hk
          have hka : ¬(a = k ∧ a < f.entries.length) := by
            rintro ⟨rfl, _⟩
            rw [hg a (List.mem_cons_self a rest)] at hk
            cases hk
          have hsk : getE (setE f a { getE f a with id := newG.id }) k = getE f k := by
            rw [getE_setE, if_neg hka]
          rw [h4 k (by rw [hsk]; exact hk), hsk]

theorem finishDevice_spec (f : Forest) (env : Env) (j : Nat) (newDev : PObj)
    (env' : Env) (f' : Forest) (n : Nat)
    (hid : newDev.id = some n)
    (hj : j < f.entries.length)
    (hok : finishDevice f env j newDev = (env', .ok f')) :
    f'.par = f.par ∧ f'.entries.length = f.entries.length ∧
    (∀ k, (getE f' k).isDevice = (getE f k).isDevice) ∧
    (∀ k, k ≠ j → getE f' k = getE f k) ∧
    (getE f' j).id = some n ∧
    env'.pDevices = env.pDevices := by
  unfold finishDevice at hok
  dsimp only at hok
  cases hci : (getE f j).ci with
  | none =>
    rw [hci] at hok
    simp at hok
  | some ci =>
    rw [hci] at hok
    dsimp only at hok
    cases hup : update_config_item env { ci with prtgId := newDev.id } with
    | error er =>
      rw [hup] at hok
      simp at hok
    | ok env₂ =>
      rw [hup] at hok
      dsimp only at hok
      simp only [Prod.mk.injEq, Except.ok.injEq] at hok
      obtain ⟨he, hf⟩ := hok
      subst he
      subst hf
      refine ⟨setE_par _ _ _, setE_len _ _ _, ?_, ?_, ?_,
        update_config_item_pDevices env _ _ hup⟩
      · intro k
        rw [getE_setE]
        by_cases hc : j = k ∧ j < f.entries.length
        · rw [if_pos hc]
          obtain ⟨rfl, _⟩ := hc
          rfl
        · rw [if_neg hc]
      · intro k hk
        rw [getE_setE, if_neg (fun hc => hk hc.1.symm)]
      · rw [getE_setE, if_pos ⟨rfl, hj⟩]
        exact hid

theorem processDevice_spec (f : Forest) (env : Env) (j : Nat) (env' : Env)
    (f' : Forest)
    (hpar : parentsAreGroups f = true)
    (hj : j < f.entries.length)
    (hok : processDevice f env j = (env', .ok f')) :
    f'.par = f.par ∧ f'.entries.length = f.entries.length ∧
    (∀ k, (getE f' k).isDevice = (getE f k).isDevice) ∧
    (∀ k, k ≠ j → (getE f k).isDevice = true → getE f' k = getE f k) ∧
    (∃ n, (getE f' j).id = some n ∧ n ∈ envDevIds env') ∧
    (∀ d ∈ envDevIds env, d ∈ envDevIds env') := by
  unfold processDevice at hok
  cases hpj : f.par.getD j none with
  | none =>
    rw [hpj] at hok
    simp at hok
  | some pj =>
    rw [hpj] at hok
    dsimp only at hok
    cases hadd : add_device env (getE f j) (getE f pj) with
    | ok p =>
      obtain ⟨env₁, newDev⟩ := p
      rw [hadd] at hok
      dsimp only at hok
      obtain ⟨hdev1, hnid⟩ := add_device_ok_inv env (getE f j) (getE f pj)
        env₁ newDev hadd
      obtain ⟨g1, g2, g3, g4, g5, g6⟩ :=
        finishDevice_spec f env₁ j newDev env' f' env.nextId hnid hj hok
      refine ⟨g1, g2, g3, fun k hk _ => g4 k hk, ⟨env.nextId, g5, ?_⟩, ?_⟩
      · have : envDevIds env' = envDevIds env₁ := by unfold envDevIds; rw [g6]
        rw [this, hdev1]
        simp
      · intro d hd
        have : envDevIds env' = envDevIds env₁ := by unfold envDevIds; rw [g6]
        rw [this, hdev1]
        exact List.mem_append_left _ hd
    | error er =>
      rw [hadd] at hok
      dsimp only at hok
      cases hcg : createGroups f env (groupsToAddFor f j pj).reverse with
      | mk envc r =>
        rw [hcg] at hok
        cases r with
        | error er2 =>
          dsimp only at hok
          simp at hok
        | ok f₁ =>
          dsimp only at hok
          have hgrp : ∀ a ∈ (groupsToAddFor f j pj).reverse,
              (getE f a).isDevice = false := fun a ha =>
            groupsToAddFor_groups f j pj hpar hpj a (List.mem_reverse.mp ha)
          obtain ⟨c1, c2, c3, c4, c5⟩ :=
            createGroups_frame _ f env envc f₁ hgrp hcg
          have hide : envDevIds envc = envDevIds env := by
            unfold envDevIds
            rw [c5]
          cases hadd2 : add_device envc (getE f₁ j) (getE f₁ pj) with
          | error er2 =>
            rw [hadd2] at hok
            dsimp only at hok
            simp at hok
          | ok p =>
            obtain ⟨env₂, newDev⟩ := p
            rw [hadd2] at hok
            dsimp only at hok
            obtain ⟨hdev2, hnid2⟩ := add_device_ok_inv envc (getE f₁ j)
              (getE f₁ pj) env₂ newDev hadd2
            have hj1 : j < f₁.entries.length := by
              rw [c2]
              exact hj
            obtain ⟨g1, g2, g3, g4, g5, g6⟩ :=
              finishDevice_spec f₁ env₂ j newDev env' f' envc.nextId hnid2 hj1 hok
            have hdev' : envDevIds env' = envDevIds env ++ [envc.nextId] := by
              have : envDevIds env' = envDevIds env₂ := by unfold envDevIds; rw [g6]
              rw [this, hdev2, hide]
            refine ⟨by rw [g1, c1], by rw [g2, c2], fun k => by rw [g3 k, c3 k],
              ?_, ⟨envc.nextId, g5, ?_⟩, ?_⟩
            · intro k hk hdk
              rw [g4 k hk, c4 k hdk]
            · rw [hdev']
              simp
            · intro d hd
              rw [hdev']
              exact List.mem_append_left _ hd

theorem parentsAreGroups_frame (f f' : Forest)
    (hp : f'.par = f.par)
    (hd : ∀ k, (getE f' k).isDevice = (getE f k).isDevice)
    (h : parentsAreGroups f = true) : parentsAreGroups f' = true := by
  unfold parentsAreGroups at h ⊢
  rw [hp]
  rw [List.all_eq_true] at h ⊢
  intro j hj
  have hh := h j hj
  cases hq : f.par.getD j none with
  | none => rfl
  | some a =>
    rw [hq] at hh
    show (!(getE f' a).isDevice) = true
    rw [hd a]
    exact hh

theorem deviceIdx_congr (f f' : Forest)
    (hp : f'.par = f.par)
    (hd : ∀ k, (getE f' k).isDevice = (getE f k).isDevice) :
    deviceIdx f' = deviceIdx f := by
  unfold deviceIdx bfsIdx
  rw [hp]
  exact List.filter_congr (fun a _ => by rw [hd a])

theorem addLoop_spec (l : List Nat) : ∀ f env env' f',
    parentsAreGroups f = true →
    (∀ j ∈ l, (getE f j).isDevice = true) →
    addLoop f env l = (env', .ok f') →
    f'.par = f.par ∧ f'.entries.length = f.entries.length ∧
    (∀ k, (getE f' k).isDevice = (getE f k).isDevice) ∧
    (∀ k, k ∉ l → (getE f k).isDevice = true → getE f' k = getE f k) ∧
    (∀ j ∈ l, ∃ n, (getE f' j).id = some n ∧ n ∈ envDevIds env') ∧
    (∀ d ∈ envDevIds env, d ∈ envDevIds env') := by
  induction l with
  | nil =>
    intro f env env' f' _ _ h
    unfold addLoop at h
    simp only [Prod.mk.injEq, Except.ok.injEq] at h
    obtain ⟨h1, h2⟩ := h
    subst h1
    subst h2
    exact ⟨rfl, rfl, fun k => rfl, fun k _ _ => rfl,
      fun j hj => absurd hj (List.not_mem_nil j), fun d hd => hd⟩
  | cons j rest ih =>
    intro f env env' f' hpar hall h
    unfold addLoop at h
    cases hpd : processDevice f env j with
    | mk env₁ r =>
      rw [hpd] at h
      cases r with
      | error er =>
        dsimp only at h
        simp at h
      | ok f₁ =>
        dsimp only at h
        have hdj : (getE f j).isDevice = true := hall j (List.mem_cons_self j rest)
        have hj : j < f.entries.length := getE_isDevice_lt f j hdj
        obtain ⟨p1, p2, p3, p4, p5, p6⟩ :=
          processDevice_spec f env j env₁ f₁ hpar hj hpd
        have hpar₁ : parentsAreGroups f₁ = true :=
          parentsAreGroups_frame f f₁ p1 p3 hpar
        have hall₁ : ∀ j' ∈ rest, (getE f₁ j').isDevice = true := fun j' hj' => by
          rw [p3 j']
          exact hall j' (List.mem_cons_of_mem j hj')
        obtain ⟨q1, q2, q3, q4, q5, q6⟩ := ih f₁ env₁ env' f' hpar₁ hall₁ h
        refine ⟨by rw [q1, p1], by rw [q2, p2], fun k => by rw [q3 k, p3 k],
          ?_, ?_, fun d hd => q6 d (p6 d hd)⟩
        · intro k hk hdk
          have hkj : k ≠ j := fun hc => hk (hc ▸ List.mem_cons_self j rest)
          have hkr : k ∉ rest := fun hc => hk (List.mem_cons_of_mem j hc)
          rw [q4 k hkr (by rw [p3 k]; exact hdk), p4 k hkj hdk]
        · intro j' hj'
          rcases List.mem_cons.mp hj' with rfl | hjr
          · by_cases hjr2 : j' ∈ rest
            · exact q5 j' hjr2
            · obtain ⟨n, hn1, hn2⟩ := p5
              refine ⟨n, ?_, q6 n hn2⟩
              rw [q4 j' hjr2 (by rw [p3 j']; exact hdj)]
              exact hn1
          · exact q5 j' hjr

theorem sync_groups_frame (e c f : Forest)
    (h : sync_groups e c = .ok f) :
    f.par = e.par ∧ f.entries.length = e.entries.length ∧
    (∀ k, (getE f k).isDevice = (getE e k).isDevice) ∧
    (∀ k, (getE e k).isDevice = true → getE f k = getE e k) := by
  unfold sync_groups at h
  cases hge : groupIdx e with
  | nil =>
    rw [hge] at h
    cases hgc : groupIdx c with
    | nil => rw [hgc] at h; simp at h
    | cons cR cRest => rw [hgc] at h; simp at h
  | cons eR eRest =>
    cases hgc : groupIdx c with
    | nil => rw [hge, hgc] at h; simp at h
    | cons cR cRest =>
      rw [hge, hgc] at h
      dsimp only at h
      cases hpre : pyStartsWith (getE c cR).name (getE e eR).name with
      | false =>
        rw [hpre] at h
        simp at h
      | true =>
        rw [hpre] at h
        rw [if_neg (show ¬¬(true = true) from fun hn => hn rfl)] at h
        simp only [Except.ok.injEq] at h
        subst h
        have heR : (getE e eR).isDevice = false := by
          have hmem : eR ∈ groupIdx e := by
            rw [hge]
            exact List.mem_cons_self _ _
          unfold groupIdx at hmem
          rw [List.mem_filter] at hmem
          simpa using hmem.2
        refine ⟨?_, ?_, ?_, ?_⟩
        · rw [stampLoop_par, setE_par]
        · rw [stampLoop_len, setE_len]
        · intro k
          obtain ⟨_, hdev, _⟩ := stampLoop_keep eRest _ _ k
          rw [hdev, getE_setE]
          by_cases hc' : eR = k ∧ eR < e.entries.length
          · rw [if_pos hc']
            obtain ⟨rfl, _⟩ := hc'
            rfl
          · rw [if_neg hc']
        · intro k hdk
          have hkeR : ¬(eR = k ∧ eR < e.entries.length) := by
            rintro ⟨rfl, _⟩
            rw [heR] at hdk
            cases hdk
          have hknotin : k ∉ eRest := by
            intro hmem
            have hgm : k ∈ groupIdx e := by
              rw [hge]
              exact List.mem_cons_of_mem _ hmem
            unfold groupIdx at hgm
            rw [List.mem_filter] at hgm
            have h2 := hgm.2
            rw [hdk] at h2
            simp at h2
          rw [stampLoop_untouched eRest _ _ k hknotin, getE_setE, if_neg hkeR]

/-- C1.  Idempotence of reconciliation: if one `sync_trees` run succeeds
(producing platform state `env₁` and stamped tree `f₁`), then a second run
against any rebuilt current tree `c₂` that faithfully reflects the
platform (every platform device id appears in it, its root still matches)
performs no mutations: the platform state is returned unchanged (`env₁`,
hence an unchanged call trace), the second `device_to_add` set is empty,
and the returned added-device list is empty.  Well-formedness assumed of
the inputs: parents in the expected tree are group nodes, and the first
current tree's device ids all exist on the platform. -/
theorem claim_C1_idempotent (e c : Forest) (env env₁ : Env) (f₁ : Forest)
    (added : List PObj) (c₂ : Forest)
    (hpg : parentsAreGroups e = true)
    (htop : treeIdsOnPlatform c env = true)
    (hrun : sync_trees e c env = (env₁, .ok (f₁, added)))
    (hpit : platformIdsInTree env₁ c₂ = true)
    (hge : groupIdx f₁ ≠ [])
    (hgc : groupIdx c₂ ≠ [])
    (hroot : pyStartsWith (getE c₂ ((groupIdx c₂).headD 0)).name
      (getE f₁ ((groupIdx f₁).headD 0)).name = true) :
    ∃ f₂, sync_trees f₁ c₂ env₁ = (env₁, .ok (f₂, [])) := by
  unfold sync_trees at hrun
  cases hsg : sync_groups e c with
  | error er =>
    rw [hsg] at hrun
    simp at hrun
  | ok f₀ =>
    rw [hsg] at hrun
    dsimp only at hrun
    obtain ⟨s1, s2, s3, s4⟩ := sync_groups_frame e c f₀ hsg
    have hpar₀ : parentsAreGroups f₀ = true := parentsAreGroups_frame e f₀ s1 s3 hpg
    have hall₁ : ∀ (p : Nat → Bool), ∀ j ∈ (deviceIdx f₀).filter p,
        (getE f₀ j).isDevice = true := by
      intro p j hj
      have hjd := (List.mem_filter.mp hj).1
      unfold deviceIdx at hjd
      exact (List.mem_filter.mp hjd).2
    split at hrun
    · simp at hrun
    · rename_i env₁' f₁' heq
      simp only [Prod.mk.injEq, Except.ok.injEq] at hrun
      obtain ⟨henv, hf, hadded⟩ := hrun
      have henv' := henv.symm
      have hf' := hf.symm
      subst henv'
      subst hf'
      -- package the run-1 add loop with the two facts we need about its list
      obtain ⟨L1, hL1dev, hL1out, hL1⟩ :
          ∃ L1, (∀ j ∈ L1, (getE f₀ j).isDevice = true) ∧
            (∀ j ∈ deviceIdx f₀, j ∉ L1 →
              ¬((getE f₀ j).id = none ∨
                (getE f₀ j).id ∉ (deviceIdx c).map (fun i => (getE c i).id))) ∧
            addLoop f₀ env L1 = (env₁, .ok f₁) := by
        refine ⟨_, hall₁ _, ?_, heq⟩
        intro j hj hnf
        have hpj : decide ((getE f₀ j).id = none ∨
            (getE f₀ j).id ∉ (deviceIdx c).map (fun i => (getE c i).id)) = false := by
          cases hq : decide ((getE f₀ j).id = none ∨
              (getE f₀ j).id ∉ (deviceIdx c).map (fun i => (getE c i).id)) with
          | false => rfl
          | true => exact absurd (List.mem_filter.mpr ⟨hj, hq⟩) hnf
        exact of_decide_eq_false hpj
      obtain ⟨a1, a2, a3, a4, a5, a6⟩ :=
        addLoop_spec L1 f₀ env env₁ f₁ hpar₀ hL1dev hL1
      have hdidx : deviceIdx f₁ = deviceIdx f₀ := deviceIdx_congr f₀ f₁ a1 a3
      -- every device of the stamped tree now carries a live platform id
      have KR : ∀ j ∈ deviceIdx f₁,
          ∃ n, (getE f₁ j).id = some n ∧ n ∈ envDevIds env₁ := by
        intro j hj
        rw [hdidx] at hj
        by_cases hmem : j ∈ L1
        · exact a5 j hmem
        · have hjd : (getE f₀ j).isDevice = true := by
            unfold deviceIdx at hj
            exact (List.mem_filter.mp hj).2
          have hpred := hL1out j hj hmem
          push_neg at hpred
          obtain ⟨hidne, hidmem⟩ := hpred
          cases hid : (getE f₀ j).id with
          | none => exact absurd hid hidne
          | some d =>
            rw [hid] at hidmem
            rw [List.mem_map] at hidmem
            obtain ⟨i, hi, hieq⟩ := hidmem
            have hdv : d ∈ envDevIds env := by
              unfold treeIdsOnPlatform at htop
              rw [List.all_eq_true] at htop
              have hti := htop i hi
              rw [hieq] at hti
              dsimp only at hti
              simpa using hti
            refine ⟨d, ?_, a6 d hdv⟩
            rw [a4 j hmem hjd]
            exact hid
      -- run 2
      cases hgf : groupIdx f₁ with
      | nil => exact absurd hgf hge
      | cons eR eRest =>
        cases hgc₂ : groupIdx c₂ with
        | nil => exact absurd hgc₂ hgc
        | cons cR cRest =>
          rw [hgf, hgc₂] at hroot
          have hroot' : pyStartsWith (getE c₂ cR).name (getE f₁ eR).name = true :=
            hroot
          have hsg₂ : sync_groups f₁ c₂ = .ok (stampLoop eRest
              (setE f₁ eR { getE f₁ eR with id := (getE c₂ cR).id })
              (dictOfList (cRest.map
                (fun i => ((getE c₂ i).name, (getE c₂ i).id))))) := by
            unfold sync_groups
            rw [hgf, hgc₂]
            dsimp only
            rw [hroot']
            rw [if_neg (show ¬¬(true = true) from fun hn => hn rfl)]
          set F2 : Forest := stampLoop eRest
            (setE f₁ eR { getE f₁ eR with id := (getE c₂ cR).id })
            (dictOfList (cRest.map (fun i => ((getE c₂ i).name, (getE c₂ i).id))))
            with hF2
          obtain ⟨t1, t2, t3, t4⟩ := sync_groups_frame f₁ c₂ F2 hsg₂
          have hdidx₂ : deviceIdx F2 = deviceIdx f₁ := deviceIdx_congr f₁ F2 t1 t3
          refine ⟨F2, ?_⟩
          unfold sync_trees
          rw [hsg₂]
          dsimp only
          have htoAdd₂ : (deviceIdx F2).filter
              (fun j => decide ((getE F2 j).id = none ∨
                (getE F2 j).id ∉ (deviceIdx c₂).map (fun i => (getE c₂ i).id)))
              = [] := by
            rw [List.filter_eq_nil_iff]
            intro j hj
            rw [hdidx₂] at hj
            obtain ⟨n, hn1, hn2⟩ := KR j hj
            have hjd : (getE f₁ j).isDevice = true := by
              unfold deviceIdx at hj
              exact (List.mem_filter.mp hj).2
            have hkeep := t4 j hjd
            rw [decide_eq_true_eq]
            push_neg
            constructor
            · rw [hkeep, hn1]
              exact fun hc => Option.noConfusion hc
            · rw [hkeep, hn1]
              unfold platformIdsInTree at hpit
              rw [List.all_eq_true] at hpit
              have hp := hpit n hn2
              rw [List.any_eq_true] at hp
              obtain ⟨i, hi, hbeq⟩ := hp
              rw [beq_iff_eq] at hbeq
              rw [List.mem_map]
              exact ⟨i, hi, hbeq⟩
          rw [htoAdd₂]
          rfl

/-- C1 witness: the first run on `Acme Corp → StageA → dev1` against the
bare decorated root creates `StageA` and the device and writes the id
back; rerunning on the resulting stamped tree and the rebuilt current
tree leaves the platform state untouched and adds nothing. -/
theorem claim_C1_idempotent_witness :
    parentsAreGroups e1w = true ∧
    treeIdsOnPlatform c1w env0w = true ∧
    sync_trees e1w c1w env0w = (env3aft, .ok (f3aft, [getE f3aft 2])) ∧
    platformIdsInTree env3aft c2w = true ∧
    (∃ f₂, sync_trees f3aft c2w env3aft = (env3aft, .ok (f₂, []))) :=
  ⟨by decide, by decide, by rfl, by decide,
   claim_C1_idempotent e1w c1w env0w env3aft f3aft [getE f3aft 2] c2w
     (by decide) (by decide) (by rfl) (by decide) (by decide) (by decide)
     (by decide)⟩

end ReconcileSnowPrtg
